import Mathlib

/-!
Verification of the robust deviation scoring engine of the stock-reports
repository (china_econ_ESPT.py, china_stock_ESPT.py, usa_stockESPT.py,
us_econESPTyu.py, us_econESPT.py, china_S_ESPTCC.py).

A pandas Series of daily prices is modelled as a `List ℚ` of values (the
scoring code only uses positional windows), or, where calendar alignment
matters, as a `List (ℕ × ℚ)` of (date, value) pairs with no missing values.
pandas NaN results are modelled as `Option`.  A rolling statistic with
window `w` and `min_periods mp` at position `i` uses the last
`min (i+1) w` elements and yields a value exactly when that count is at
least `mp`.  `.std()` is the square root of the sample variance
(`ddof = 1`); the square root is the only non-rational step and is taken
in `ℝ` via `Real.sqrt`.
-/

/-- Discrete risk levels used across all dashboards. -/
inductive Level
  | red
  | orange
  | yellow
  | green
  | gray
  deriving DecidableEq, Repr

/-- Severity rank used by the monotonicity claims:
Gray < Green < Yellow < Orange < Red. -/
def severityRank : Level → ℕ
  | .gray => 0
  | .green => 1
  | .yellow => 2
  | .orange => 3
  | .red => 4

/-- Arithmetic mean of a list (`np.mean` / `.mean()`); 0 on the empty list
(the sources never take a mean of an empty window). -/
def listMean (l : List ℚ) : ℚ := l.sum / l.length

/-- Sample variance with `ddof = 1` (the quantity under pandas `.std()`). -/
def sampleVar (l : List ℚ) : ℚ :=
  (l.map (fun x => (x - listMean l) ^ 2)).sum / ((l.length : ℚ) - 1)

/-- The window a pandas rolling statistic uses at the last position:
the last `w` elements (fewer when the list is shorter). -/
def lastWindow (w : ℕ) (xs : List ℚ) : List ℚ := xs.drop (xs.length - w)

/-- Last entry of `xs.rolling(window := w, min_periods := mp).mean()`:
a value exactly when the window holds at least `mp` observations. -/
def rollingMeanLast (w mp : ℕ) (xs : List ℚ) : Option ℚ :=
  if (lastWindow w xs).length < mp then none else some (listMean (lastWindow w xs))

/-- Last entry of the sample variance under
`xs.rolling(window := w, min_periods := mp).std()` (the std itself is
`Real.sqrt` of this value). -/
def rollingVarLast (w mp : ℕ) (xs : List ℚ) : Option ℚ :=
  if (lastWindow w xs).length < mp then none else some (sampleVar (lastWindow w xs))

/-- The window of `xs.rolling(w)` at position `i` (0-based). -/
def windowAt (w : ℕ) (xs : List ℚ) (i : ℕ) : List ℚ :=
  (xs.take (i + 1)).drop (i + 1 - w)

/-- `bias = series / series.rolling(w, min_periods := mp).mean() - 1`,
restricted to the positions where the rolling mean is defined (the
`valid_idx` selection of china_econ_ESPT / china_stock_ESPT and the
`.dropna()` of usa_stockESPT give that same restriction). -/
def biasList (w mp : ℕ) (xs : List ℚ) : List ℚ :=
  (List.range xs.length).filterMap fun i =>
    if mp ≤ (windowAt w xs i).length then
      some (xs.getD i 0 / listMean (windowAt w xs i) - 1)
    else none

/-- `bias = (series - m) / (m + eps)` with `m` the rolling mean, then
`.dropna()` — the bias construction of us_econESPTyu.calculate_bias_z_score. -/
def biasListEps (w mp : ℕ) (eps : ℚ) (xs : List ℚ) : List ℚ :=
  (List.range xs.length).filterMap fun i =>
    if mp ≤ (windowAt w xs i).length then
      some ((xs.getD i 0 - listMean (windowAt w xs i)) / (listMean (windowAt w xs i) + eps))
    else none

/-- A price series with calendar dates: (date, value) pairs, dates
strictly increasing in all intended inputs. -/
abbrev Series := List (ℕ × ℚ)

/-- The calendar dates of a series. -/
def datesOf (s : Series) : List ℕ := s.map Prod.fst

/-- Largest date mentioned by either series (used to enumerate the union). -/
def maxDate (a b : Series) : ℕ := (datesOf a ++ datesOf b).foldr max 0

/-- Sorted union of the two series' calendar dates
(`series1.index.union(series2.index).sort_values()`). -/
def unionDates (a b : Series) : List ℕ :=
  (List.range (maxDate a b + 1)).filter fun d =>
    decide (d ∈ datesOf a ∨ d ∈ datesOf b)

/-- `series.reindex(all_dates).ffill()` read at date `d`: the value of the
last observation at or before `d`, none when no observation exists yet. -/
def ffillAt (s : Series) (d : ℕ) : Option ℚ :=
  ((s.filter fun p => decide (p.1 ≤ d)).getLast?).map Prod.snd

/-- Exact-date lookup (no forward fill): the value stored at date `d`. -/
def lookupDate (s : Series) (d : ℕ) : Option ℚ :=
  (s.find? fun p => decide (p.1 = d)).map Prod.snd

/-- Modelled from the spec and claim C5 wording: the dates the aligned
output must carry — the union of both calendars minus the dates on which
either side still has no value after forward-filling, i.e. the dates
preceded (weakly) by an observation on both sides. -/
def specAlignedDates (a b : Series) : List ℕ :=
  (unionDates a b).filter fun d =>
    ((datesOf a).any fun e => e ≤ d) && ((datesOf b).any fun e => e ≤ d)

/-- Extracts the z-score from a us_econESPTyu scorer result
(`none`/NaN read as 0, which is how a missing score is displayed). -/
noncomputable def zOut (r : Option (Option ℝ × ℚ)) : ℝ :=
  match r with
  | some (some z, _) => z
  | _ => 0

/-- Symmetric clip `np.clip(z, -c, c)`. -/
noncomputable def clipSym (c z : ℝ) : ℝ := max (-c) (min c z)

/-- How a series is obtained (the fetch results the data source hands the
analyzer): a single symbol whose fetch yielded `primary`, with an optional
fallback fetch result, or a ratio of two fetched legs.  The external-series
mode of china_stock_ESPT / us_econESPT is not modelled (no claim uses it). -/
inductive SeriesSpec
  | direct (primary : Series) (fallback : Option Series)
  | ratioPair (num den : Series)

namespace ChinaEcon

/-! china_econ_ESPT.py, class MacroAnalyzer:
window_long = 252, min_data_points = int(252 * 1.2) = 302,
min_req = int(252 * 0.8) = 201, z_thresholds red 2.0 / orange 1.0 / green -1.0,
Winsorization at plus-minus 4.0. -/

/-- `align_time_series`: union of the calendars, forward-fill both sides,
keep exactly the rows where neither side is NaN. -/
def align_time_series (a b : Series) : Series × Series :=
  let rows := (unionDates a b).filterMap fun d =>
    match ffillAt a d, ffillAt b d with
    | some x, some y => some (d, x, y)
    | _, _ => none
  (rows.map fun r => (r.1, r.2.1), rows.map fun r => (r.1, r.2.2))

/-- `calculate_robust_z_score` (china_econ_ESPT lines 23-69): bias z-score
with window 252, min_periods 201 in both rolling stages, zero-or-NaN
dispersion guarded to z = 0, Winsorization at 4.0, then direction flip. -/
noncomputable def calculate_robust_z_score (series : List ℚ) (inverse : Bool) : ℝ × ℚ :=
  if series.length < 201 then (0, 0)
  else
    let bias := biasList 252 201 series
    match bias.getLast? with
    | none => (0, 0)
    | some curBias =>
      match rollingMeanLast 252 201 bias with
      | none => (0, curBias)
      | some curMean =>
        let z0 : ℝ :=
          match rollingVarLast 252 201 bias with
          | none => 0
          | some v =>
            let σ : ℝ := Real.sqrt (v : ℝ)
            if σ = 0 then 0 else ((curBias : ℝ) - (curMean : ℝ)) / σ
        let z := clipSym 4 z0
        (if inverse then -z else z, curBias)

/-- The leveling of `fetch_and_analyze` (lines 116-123), thresholds
red 2.0, orange 1.0, green -1.0. -/
def classify {α : Type} [LinearOrderedField α] (z : α) : Level :=
  if z > 2 then .red
  else if z > 1 then .orange
  else if z < -1 then .green
  else .yellow

/-- Data acquisition part of `fetch_and_analyze` (lines 88-108): ratio mode
raises on an empty leg or a too-short aligned length; single mode switches
to the fallback when the primary is empty or short, then raises when the
result is empty or shorter than min_data_points = 302. -/
def resolveSeries : SeriesSpec → Except String Series
  | .ratioPair num den =>
    if num = [] ∨ den = [] then .error "ratio source missing"
    else
      let sn := (align_time_series num den).1
      let sd := (align_time_series num den).2
      if sn.length < 302 then .error "aligned length too short"
      else .ok (List.zipWith (fun p q => (p.1, p.2 / q.2)) sn sd)
  | .direct p fb =>
    let s := if (p = [] ∨ p.length < 302) ∧ fb.isSome then fb.getD [] else p
    if s = [] ∨ s.length < 302 then .error "source dead" else .ok s

/-- One scored-indicator record (the dict returned by `fetch_and_analyze`;
the error dict carries z = 0 and level gray). -/
structure Record where
  z : ℝ
  bias : ℚ
  level : Level
  msg : String

/-- The body of `fetch_and_analyze`'s try block: any raise surfaces as
`.error`. -/
noncomputable def fetchAndAnalyzeE (spec : SeriesSpec) (inverse : Bool) :
    Except String Record := do
  let s ← resolveSeries spec
  let zb := calculate_robust_z_score (s.map Prod.snd) inverse
  .ok { z := zb.1, bias := zb.2, level := classify zb.1,
        msg := if classify zb.1 = .red then "极度异常"
          else if classify zb.1 = .orange then "显著偏离"
          else if classify zb.1 = .green then "低位安全" else "处于均值" }

/-- `fetch_and_analyze` (lines 87-137): the except-branch converts every
failure into a gray record with z = 0. -/
noncomputable def fetch_and_analyze (spec : SeriesSpec) (inverse : Bool) : Record :=
  match fetchAndAnalyzeE spec inverse with
  | .ok r => r
  | .error _ => { z := 0, bias := 0, level := .gray, msg := "Error" }

/-! `generate_report` (lines 483-552): aggregation over the dimension map.
A batch is the list of (dimension weight, indicator items) in iteration
order; china_econ uses weights E 0.20, S 0.35, P 0.30, T 0.15. -/

/-- One item as seen by the aggregation stage. -/
structure AggItem where
  name : String
  level : Level
  deriving DecidableEq

/-- Structural substring test on character lists. -/
def charsContainSub : List Char → List Char → Bool
  | pat, [] => pat.isEmpty
  | pat, c :: rest => pat.isPrefixOf (c :: rest) || charsContainSub pat rest

/-- `"pat" in name` (Python substring test): the pattern's characters are
an infix of the name's characters. -/
def containsSub (s pat : String) : Bool := charsContainSub pat.data s.data

/-- The `core_status` dict: levels of the named core indicators. -/
structure CoreStatus where
  ashr : Option Level := none
  fx : Option Level := none
  copper : Option Level := none
  deriving DecidableEq

/-- Lines 508-510: record the item's level under the matching core key. -/
def updateCore (st : CoreStatus) (it : AggItem) : CoreStatus :=
  let st1 := if containsSub it.name "沪深300" then { st with ashr := some it.level } else st
  let st2 := if containsSub it.name "USDCNY" then { st1 with fx := some it.level } else st1
  if containsSub it.name "铜" then { st2 with copper := some it.level } else st2

/-- `core_status` after the full iteration over all dimensions' items. -/
def coreStatusOf (batch : List (ℚ × List AggItem)) : CoreStatus :=
  batch.foldl (fun st dim => dim.2.foldl updateCore st) {}

/-- Number of core indicators currently at Orange (line 517). -/
def orangeCount (st : CoreStatus) : ℕ :=
  ([st.ashr, st.fx, st.copper].filter fun l => l = some Level.orange).length

/-- Lines 513-519: the collected veto messages. -/
def vetoMsgsOf (st : CoreStatus) : List String :=
  (if st.fx = some .red then ["汇率失锚 (USDCNY Red)"] else []) ++
  (if st.ashr = some .red then ["核心资产崩盘 (ASHR Red)"] else []) ++
  (if 2 ≤ orangeCount st then
    ["系统性共振 (" ++ toString (orangeCount st) ++ "个核心指标 Orange)"] else [])

/-- `score_map` (line 488). -/
def scoreMap : Level → ℚ
  | .red => 10
  | .orange => 6
  | .yellow => 3
  | .green => 0
  | .gray => 5

/-- `total_score` (lines 499-511): per-dimension mean severity times the
dimension weight, summed. -/
def totalScoreOf (batch : List (ℚ × List AggItem)) : ℚ :=
  (batch.map fun dim =>
    (dim.2.map fun it => scoreMap it.level).sum / (dim.2.length : ℚ) * dim.1).sum

/-- Final risk bands of lines 535-547. -/
inductive Band
  | red
  | orange
  | yellow
  | green
  deriving DecidableEq

/-- Lines 520-521 and 535-547: a non-empty veto list forces the red band;
otherwise the weighted score is banded at 6 and 3. -/
def finalBandOf (batch : List (ℚ × List AggItem)) : Band :=
  if vetoMsgsOf (coreStatusOf batch) ≠ [] then .red
  else if 6 < totalScoreOf batch then .orange
  else if 3 < totalScoreOf batch then .yellow
  else .green

end ChinaEcon

namespace ChinaStock

/-! china_stock_ESPT.py, class MacroAnalyzer:
window_long = 252, min_data_points = int(252 * 0.85) = 214,
z_thresholds red 2.2 / orange 1.2 / green -1.0, Winsorization at 4.5.
The second rolling stage uses no min_periods, i.e. min_periods = 252. -/

/-- `calculate_robust_z_score` (china_stock_ESPT lines 34-72). -/
noncomputable def calculate_robust_z_score (series : List ℚ) (inverse : Bool) : ℝ × ℚ :=
  if series.length < 214 then (0, 0)
  else
    let bias := biasList 252 214 series
    match bias.getLast? with
    | none => (0, 0)
    | some curBias =>
      let z0 : ℝ :=
        match rollingMeanLast 252 252 bias, rollingVarLast 252 252 bias with
        | some m, some v =>
          let σ : ℝ := Real.sqrt (v : ℝ)
          if σ = 0 then 0 else ((curBias : ℝ) - (m : ℝ)) / σ
        | _, _ => 0
      let z := clipSym (9 / 2) z0
      (if inverse then -z else z, curBias)

/-- The leveling of `fetch_and_analyze` (lines 124-127), thresholds
red 2.2, orange 1.2, green -1.0. -/
def classify {α : Type} [LinearOrderedField α] (z : α) : Level :=
  if z > 11 / 5 then .red
  else if z > 6 / 5 then .orange
  else if z < -1 then .green
  else .yellow

/-- Data acquisition part of `fetch_and_analyze` (lines 99-115).  Unlike
china_econ_ESPT, the single-asset mode (mode C) raises only when the series
is empty — a non-empty series shorter than min_data_points passes through. -/
def resolveSeries : SeriesSpec → Except String Series
  | .ratioPair num den =>
    if num = [] ∨ den = [] then .error "ratio data missing"
    else
      let sn := (ChinaEcon.align_time_series num den).1
      let sd := (ChinaEcon.align_time_series num den).2
      if sn.length < 214 then .error "ratio length too short"
      else .ok (List.zipWith (fun p q => (p.1, p.2 / q.2)) sn sd)
  | .direct p fb =>
    let s := if (p = [] ∨ p.length < 214) ∧ fb.isSome then fb.getD [] else p
    if s = [] then .error "source dead" else .ok s

/-- One scored-indicator record of china_stock_ESPT. -/
structure Record where
  z : ℝ
  bias : ℚ
  level : Level
  text : String

/-- The body of `fetch_and_analyze`'s try block. -/
noncomputable def fetchAndAnalyzeE (spec : SeriesSpec) (inverse : Bool) :
    Except String Record := do
  let s ← resolveSeries spec
  let zb := calculate_robust_z_score (s.map Prod.snd) inverse
  .ok { z := zb.1, bias := zb.2, level := classify zb.1,
        text := if classify zb.1 = .red then "极度异常"
          else if classify zb.1 = .orange then "显著偏离"
          else if classify zb.1 = .green then "低位安全" else "均值回归" }

/-- `fetch_and_analyze` (lines 86-135); the except-branch yields a gray
record with z = 0. -/
noncomputable def fetch_and_analyze (spec : SeriesSpec) (inverse : Bool) : Record :=
  match fetchAndAnalyzeE spec inverse with
  | .ok r => r
  | .error _ => { z := 0, bias := 0, level := .gray, text := "Error" }

end ChinaStock

namespace UsaStock

/-! usa_stockESPT.py, class MacroAnalyzer: window_long = 252,
min_data_points = int(252 * 0.85) = 214, thresholds extreme 2.2 / high 1.2 /
low -1.0, Winsorization at 4.5.  The scorer carries an explicit status flag
(1 = insufficient data) and takes no direction flag; the direction flag acts
only in `get_status_text`. -/

/-- `calculate_robust_z_score` (usa_stockESPT lines 46-67): returns
(z, current bias, status); status 1 marks insufficient data or degenerate
dispersion. -/
noncomputable def calculate_robust_z_score (series : List ℚ) : ℝ × ℚ × ℕ :=
  if series.length < 214 then (0, 0, 1)
  else
    let bias := biasList 252 214 series
    if bias.length < 252 then (0, (bias.getLast?).getD 0, 1)
    else
      let curVal := (bias.getLast?).getD 0
      match rollingMeanLast 252 252 bias, rollingVarLast 252 252 bias with
      | some m, some v =>
        let σ : ℝ := Real.sqrt (v : ℝ)
        if σ = 0 then (0, curVal, 1)
        else (clipSym (9 / 2) (((curVal : ℝ) - (m : ℝ)) / σ), curVal, 0)
      | _, _ => (0, curVal, 1)

/-- `get_status_text` (lines 69-87): direction-aware leveling.  With
inverse = false high z is the risk; with inverse = true the thresholds are
mirrored (low z is the risk, z above 1 is strength). -/
def get_status_text {α : Type} [LinearOrderedField α] (z : α) (inverse : Bool) :
    Level × String :=
  if !inverse then
    if z > 11 / 5 then (.red, "极度恐慌/过热")
    else if z > 6 / 5 then (.orange, "风险积聚")
    else if z < -1 then (.green, "低位平稳")
    else (.yellow, "正常震荡")
  else
    if z < -(11 / 5) then (.red, "严重崩盘/枯竭")
    else if z < -(6 / 5) then (.orange, "显著回调")
    else if z > 1 then (.green, "趋势强劲")
    else (.yellow, "正常震荡")

/-- One scored-indicator record of usa_stockESPT.  The source's error dict
omits the z key; every consumer reads it through `.get('z', 0)`, so it is
modelled as z = 0. -/
structure Record where
  z : ℝ
  bias : ℚ
  level : Level
  text : String

/-- `analyze_indicator` (lines 89-107): an empty series raises and is caught
as a gray Error record; status 1 from the scorer becomes a gray
"数据不足" (insufficient data) record with z = 0. -/
noncomputable def analyze_indicator (series : List ℚ) (inverse : Bool) : Record :=
  if series = [] then { z := 0, bias := 0, level := .gray, text := "Error" }
  else
    let r := calculate_robust_z_score series
    if r.2.2 = 1 then { z := 0, bias := r.2.1, level := .gray, text := "数据不足" }
    else
      { z := r.1, bias := r.2.1, level := (get_status_text r.1 inverse).1,
        text := (get_status_text r.1 inverse).2 }

end UsaStock

namespace UsEconYu

/-! us_econESPTyu.py, class MacroAnalyzer: the window is a constructor
parameter (default 252); min_periods = int(window * 0.8), which equals
4 * window / 5 (integer division) for the windows in use; epsilon = 1e-10
is added to every divisor; there is no Winsorization. -/

/-- The bias series of `calculate_bias_z_score` (line 57):
`(series - rolling_mean) / (rolling_mean + 1e-10)`, NaNs dropped. -/
def biasOf (w : ℕ) (xs : List ℚ) : List ℚ :=
  biasListEps w (4 * w / 5) (1 / 10 ^ 10) xs

/-- `calculate_bias_z_score` (us_econESPTyu lines 53-61).  Returns none for
the Python `(None, None)`; the inner option is the possibly-NaN last z entry
`((bias - mean) / (std + 1e-10)).iloc[-1]` (rolling results at the last
index depend only on the last window). -/
noncomputable def calculate_bias_z_score (w : ℕ) (xs : List ℚ) :
    Option (Option ℝ × ℚ) :=
  if xs = [] ∨ xs.length < w then none
  else
    let bias := biasOf w xs
    match bias.getLast? with
    | none => none
    | some b =>
      let z : Option ℝ :=
        match rollingMeanLast w (4 * w / 5) bias, rollingVarLast w (4 * w / 5) bias with
        | some m, some v =>
          some (((b : ℝ) - (m : ℝ)) / (Real.sqrt (v : ℝ) + 1 / 10 ^ 10))
        | _, _ => none
      some (z, b)

/-- Status labels of `get_status_color` (lines 70-78). -/
inductive StatusColor
  | red
  | darkRed
  | orange
  | darkOrange
  | yellow
  | green
  | grey
  deriving DecidableEq

/-- `get_status_color` (lines 70-78): two-sided leveling with thresholds
red 2.0, orange 1.5, yellow 1.0; a missing z is grey; the inverse flag
negates the score first. -/
def get_status_color (z : Option ℚ) (inverse : Bool) : StatusColor :=
  match z with
  | none => .grey
  | some z =>
    let score := if inverse then -z else z
    if score > 2 then .red
    else if score < -2 then .darkRed
    else if score > 3 / 2 then .orange
    else if score < -(3 / 2) then .darkOrange
    else if |score| > 1 then .yellow
    else .green

/-- Reading a status color in the claim's five-level taxonomy:
the dark variants are the extreme forms of their base severity. -/
def statusColorLevel : StatusColor → Level
  | .red => .red
  | .darkRed => .red
  | .orange => .orange
  | .darkOrange => .orange
  | .yellow => .yellow
  | .green => .green
  | .grey => .gray

/-- `align_time_series` (lines 47-51): `pd.DataFrame({'s1': s1, 's2': s2})`
outer-joins the two calendars with NaN holes and `.dropna()` keeps exactly
the rows where both series have an observation on that very date — there is
no forward fill. -/
def align_time_series (a b : Series) : Series × Series :=
  if a = [] ∨ b = [] then ([], [])
  else
    let rows := (unionDates a b).filterMap fun d =>
      match lookupDate a d, lookupDate b d with
      | some x, some y => some (d, x, y)
      | _, _ => none
    (rows.map fun r => (r.1, r.2.1), rows.map fun r => (r.1, r.2.2))

end UsEconYu

namespace ChinaS

/-! china_S_ESPTCC.py: the A-share rotation dashboard.  CHAMPION_TICKERS
membership and the consensus Z-score computation (lines 226-232).
`individual_z_scores` is modelled as an optional map from ticker code to its
z-score; `dict.get(c, 0)` reads a missing member as 0. -/

/-- The champion members of the P, S and T factors. -/
def champion : String → List String
  | "P" => ["512000.SS", "510650.SS"]
  | "S" => ["515290.SS", "159928.SZ", "510410.SS"]
  | "T" => ["510300.SS", "510500.SS", "510050.SS"]
  | _ => []

/-- The spear (offensive) members of the E factor. -/
def spear : List String := ["159915.SZ", "512480.SS"]

/-- The shield (defensive) members of the E factor. -/
def shield : List String := ["510850.SS", "159929.SZ"]

/-- The member z-scores a factor feeds to `np.mean`:
`[individual_z_scores.get(c, 0) for c in codes]`. -/
def memberZ (env : String → Option ℚ) (codes : List String) : List ℚ :=
  codes.map fun c => (env c).getD 0

/-- `consensus_z_scores` (lines 226-232): P, S, T are `np.mean` over their
members; E is the spear average minus the shield average; Total is the
`np.mean` of the dict's values at that point, i.e. of the four consensus
entries. -/
def consensusZScores (env : String → Option ℚ) : List (String × ℚ) :=
  let base := (["P", "S", "T"].map fun f => (f, listMean (memberZ env (champion f))))
    ++ [("E", listMean (memberZ env spear) - listMean (memberZ env shield))]
  base ++ [("Total", listMean (base.map Prod.snd))]

/-- A concrete score assignment giving every champion member a strictly
positive z-score while the spears are weaker than the shields. -/
def envPos : String → Option ℚ := fun c => if c ∈ spear then some (1 / 10) else some 1

end ChinaS

namespace UsEcon

/-! us_econESPT.py, `generate_report` (lines 727-815): weights E 0.20 /
S 0.30 / P 0.30 / T 0.20, the same `score_map` and 6/3 banding thresholds
as china_econ, and a two-stage veto over the tracked `st` dict: two
red-crisis predicates whose messages are always appended, then an orange
early-warning predicate whose message is appended only when the list is
still empty (`if not veto_msgs`, lines 772-774). -/

/-- The `st` status dict (lines 737, 754-761): levels of the four tracked
indicators. -/
structure CoreStatus where
  vix : Option Level := none
  credit : Option Level := none
  rates : Option Level := none
  dollar : Option Level := none
  deriving DecidableEq

/-- Lines 754-761: record the item's level under each matching key. -/
def updateCore (st : CoreStatus) (it : ChinaEcon.AggItem) : CoreStatus :=
  let st1 := if ChinaEcon.containsSub it.name "VIX" then { st with vix := some it.level } else st
  let st2 := if ChinaEcon.containsSub it.name "HYG" then { st1 with credit := some it.level } else st1
  let st3 := if ChinaEcon.containsSub it.name "美债" then { st2 with rates := some it.level } else st2
  if ChinaEcon.containsSub it.name "DXY" then { st3 with dollar := some it.level } else st3

/-- `st` after the full iteration over all dimensions' items. -/
def coreStatusOf (batch : List (ℚ × List ChinaEcon.AggItem)) : CoreStatus :=
  batch.foldl (fun st dim => dim.2.foldl updateCore st) {}

/-- Lines 766-774: the collected veto messages.  The two crisis messages
are appended unconditionally when their predicates hold; the early-warning
message is appended only when the list is still empty at that point. -/
def vetoMsgsOf (st : CoreStatus) : List String :=
  let crisis :=
    (if st.vix = some .red ∧ st.credit = some .red then
      ["流动性休克 (VIX spike + Credit freeze)"] else []) ++
    (if st.rates = some .red ∧ st.dollar = some .red then
      ["紧缩风暴 (Rates + Dollar surge)"] else [])
  if ((st.vix = some .red ∨ st.vix = some .orange) ∧
      (st.credit = some .red ∨ st.credit = some .orange)) ∧ crisis = [] then
    crisis ++ ["早期预警: 流动性压力上升"]
  else crisis

/-- `total_score` (lines 743-762): per-dimension mean severity times the
dimension weight, summed — the same formula and severity map as
china_econ's. -/
def totalScoreOf (batch : List (ℚ × List ChinaEcon.AggItem)) : ℚ :=
  (batch.map fun dim =>
    (dim.2.map fun it => ChinaEcon.scoreMap it.level).sum / (dim.2.length : ℚ) * dim.1).sum

/-- Lines 775 and 787-799: a non-empty veto list forces the red band;
otherwise the weighted score is banded at 6 and 3. -/
def finalBandOf (batch : List (ℚ × List ChinaEcon.AggItem)) : ChinaEcon.Band :=
  if vetoMsgsOf (coreStatusOf batch) ≠ [] then .red
  else if 6 < totalScoreOf batch then .orange
  else if 3 < totalScoreOf batch then .yellow
  else .green

end UsEcon

/-! ### Helper lemmas -/

theorem listMean_replicate {n : ℕ} (hn : n ≠ 0) (c : ℚ) :
    listMean (List.replicate n c) = c := by
  simp only [listMean, List.sum_replicate, List.length_replicate, nsmul_eq_mul]
  rw [mul_div_assoc]
  field_simp

theorem listMean_replicate_zero_concat (k : ℕ) (b : ℚ) :
    listMean (List.replicate k 0 ++ [b]) = b / (k + 1) := by
  simp [listMean, List.sum_replicate]

theorem sampleVar_replicate_zero (n : ℕ) : sampleVar (List.replicate n (0 : ℚ)) = 0 := by
  rcases Nat.eq_zero_or_pos n with h | h
  · subst h; simp [sampleVar, listMean]
  · simp [sampleVar, listMean_replicate (Nat.pos_iff_ne_zero.mp h), List.map_replicate,
      List.sum_replicate]

theorem sampleVar_replicate_zero_concat {k : ℕ} (hk : 1 ≤ k) (b : ℚ) :
    sampleVar (List.replicate k 0 ++ [b]) = b ^ 2 / (k + 1) := by
  have hk0 : ((k : ℚ) + 1) ≠ 0 := by positivity
  have hkq : (k : ℚ) ≠ 0 := by exact_mod_cast Nat.pos_iff_ne_zero.mp hk
  simp only [sampleVar, listMean_replicate_zero_concat, List.map_append, List.map_replicate,
    List.length_append, List.length_replicate, List.sum_append, List.sum_replicate,
    List.map_cons, List.map_nil, List.sum_cons, List.sum_nil, nsmul_eq_mul]
  push_cast
  field_simp
  ring

theorem lastWindow_replicate (w k : ℕ) (c : ℚ) :
    lastWindow w (List.replicate k c) = List.replicate (min k w) c := by
  simp only [lastWindow, List.length_replicate, List.drop_replicate]
  congr 1
  omega

theorem lastWindow_replicate_concat {w k : ℕ} (hw : 1 ≤ w) (hwk : w ≤ k + 1) (b : ℚ) :
    lastWindow w (List.replicate k (0 : ℚ) ++ [b]) = List.replicate (w - 1) 0 ++ [b] := by
  simp only [lastWindow, List.length_append, List.length_replicate, List.length_cons,
    List.length_nil]
  rw [List.drop_append_of_le_length (by simp; omega), List.drop_replicate]
  congr 2
  omega

theorem rollingMeanLast_replicate_concat {w mp k : ℕ} (hmp : mp ≤ w) (hw : 1 ≤ w)
    (hwk : w ≤ k + 1) (b : ℚ) :
    rollingMeanLast w mp (List.replicate k 0 ++ [b]) = some (b / w) := by
  rw [rollingMeanLast, lastWindow_replicate_concat hw hwk]
  rw [if_neg (by simp; omega), listMean_replicate_zero_concat]
  congr 1
  congr 1
  rw [Nat.cast_sub hw]
  push_cast
  ring

theorem rollingVarLast_replicate_concat {w mp k : ℕ} (hmp : mp ≤ w) (hw : 2 ≤ w)
    (hwk : w ≤ k + 1) (b : ℚ) :
    rollingVarLast w mp (List.replicate k 0 ++ [b]) = some (b ^ 2 / w) := by
  rw [rollingVarLast, lastWindow_replicate_concat (by omega) hwk]
  rw [if_neg (by simp; omega), sampleVar_replicate_zero_concat (by omega)]
  congr 1
  congr 1
  rw [Nat.cast_sub (by omega : 1 ≤ w)]
  push_cast
  ring

theorem rollingMeanLast_replicate_short {w mp k : ℕ} (hk : k < mp) (c : ℚ) :
    rollingMeanLast w mp (List.replicate k c) = none := by
  rw [rollingMeanLast, lastWindow_replicate, if_pos (by simp; omega)]

theorem rollingVarLast_replicate_zero {w mp k : ℕ} (hk : mp ≤ k) (hkw : mp ≤ w) :
    rollingVarLast w mp (List.replicate k (0 : ℚ)) = some 0 := by
  rw [rollingVarLast, lastWindow_replicate, if_neg (by simp; omega), sampleVar_replicate_zero]

theorem windowAt_length {w : ℕ} {xs : List ℚ} {i : ℕ} (h : i < xs.length) :
    (windowAt w xs i).length = min (i + 1) w := by
  simp only [windowAt, List.length_drop, List.length_take]
  omega

theorem windowAt_replicate {w n i : ℕ} (h : i < n) (c : ℚ) :
    windowAt w (List.replicate n c) i = List.replicate (min (i + 1) w) c := by
  simp only [windowAt, List.take_replicate, List.drop_replicate]
  congr 1
  omega

theorem windowAt_replicate_concat_lt {w n i : ℕ} (h : i < n) (c d : ℚ) :
    windowAt w (List.replicate n c ++ [d]) i = List.replicate (min (i + 1) w) c := by
  simp only [windowAt]
  rw [List.take_append_of_le_length (by simp; omega)]
  simp only [List.take_replicate, List.drop_replicate]
  congr 1
  omega

theorem windowAt_replicate_concat_last {w n : ℕ} (hw : 1 ≤ w) (hwn : w ≤ n + 1) (c d : ℚ) :
    windowAt w (List.replicate n c ++ [d]) n =
      List.replicate (w - 1) c ++ [d] := by
  simp only [windowAt]
  rw [List.take_of_length_le (by simp)]
  rw [List.drop_append_of_le_length (by simp; omega), List.drop_replicate]
  congr 2
  omega

theorem filterMap_range_const_zero {mp : ℕ} (hmp : 1 ≤ mp) (n : ℕ) :
    ((List.range n).filterMap fun i =>
      if mp ≤ i + 1 then some (0 : ℚ) else none) = List.replicate (n + 1 - mp) 0 := by
  induction n with
  | zero => simp [show 1 - mp = 0 by omega]
  | succ n ih =>
    rw [List.range_succ, List.filterMap_append, ih]
    by_cases h : mp ≤ n + 1
    · simp only [List.filterMap_cons, List.filterMap_nil, if_pos h]
      rw [show n + 1 + 1 - mp = (n + 1 - mp) + 1 by omega, List.replicate_succ']
    · simp only [List.filterMap_cons, List.filterMap_nil, if_neg h]
      rw [show n + 1 + 1 - mp = n + 1 - mp by omega]
      simp

theorem getD_append_left {l1 l2 : List ℚ} {i : ℕ} (h : i < l1.length) (d : ℚ) :
    (l1 ++ l2).getD i d = l1.getD i d := by
  simp [List.getD_eq_getElem?_getD, List.getElem?_append_left h]

theorem getD_append_right_self {l1 : List ℚ} (b d : ℚ) :
    (l1 ++ [b]).getD l1.length d = b := by
  simp [List.getD_eq_getElem?_getD, List.getElem?_append_right (le_refl l1.length)]

theorem getD_replicate {n i : ℕ} (h : i < n) (c d : ℚ) :
    (List.replicate n c).getD i d = c := by
  rw [List.getD_eq_getElem?_getD, List.getElem?_eq_getElem (by simpa using h)]
  simp

theorem biasList_replicate {w mp n : ℕ} (hmp : 1 ≤ mp) (hw : mp ≤ w) {c : ℚ} (hc : c ≠ 0) :
    biasList w mp (List.replicate n c) = List.replicate (n + 1 - mp) 0 := by
  rw [biasList, List.length_replicate]
  rw [List.filterMap_congr (g := fun i => if mp ≤ i + 1 then some (0 : ℚ) else none) ?hcg]
  · exact filterMap_range_const_zero hmp n
  case hcg =>
    intro i hi
    rw [List.mem_range] at hi
    rw [windowAt_length (by simpa using hi), windowAt_replicate hi]
    by_cases hcase : mp ≤ i + 1
    · rw [if_pos (by omega : mp ≤ min (i + 1) w), getD_replicate hi,
        listMean_replicate (by omega) c, div_self hc]
      simp [hcase]
    · rw [if_neg (by omega : ¬ mp ≤ min (i + 1) w)]
      simp [hcase]

theorem biasListEps_replicate_concat {w mp n : ℕ} (hmp : 1 ≤ mp) (hw : mp ≤ w)
    (hwn : w ≤ n + 1) (eps c d : ℚ) :
    biasListEps w mp eps (List.replicate n c ++ [d]) =
      List.replicate (n + 1 - mp) 0 ++
        [(d - listMean (List.replicate (w - 1) c ++ [d])) /
          (listMean (List.replicate (w - 1) c ++ [d]) + eps)] := by
  rw [biasListEps]
  have hlen : (List.replicate n c ++ [d]).length = n + 1 := by simp
  rw [hlen, List.range_succ, List.filterMap_append]
  have hpartA : ((List.range n).filterMap fun i =>
      if mp ≤ (windowAt w (List.replicate n c ++ [d]) i).length then
        some (((List.replicate n c ++ [d]).getD i 0 -
            listMean (windowAt w (List.replicate n c ++ [d]) i)) /
          (listMean (windowAt w (List.replicate n c ++ [d]) i) + eps))
      else none) = List.replicate (n + 1 - mp) 0 := by
    rw [List.filterMap_congr (g := fun i => if mp ≤ i + 1 then some (0 : ℚ) else none) ?hcg]
    · exact filterMap_range_const_zero hmp n
    case hcg =>
      intro i hi
      rw [List.mem_range] at hi
      rw [windowAt_length (by simp; omega), windowAt_replicate_concat_lt hi]
      by_cases hcase : mp ≤ i + 1
      · rw [if_pos (by omega : mp ≤ min (i + 1) w),
          getD_append_left (by simpa using hi),
          getD_replicate hi, listMean_replicate (by omega) c]
        simp [hcase]
      · rw [if_neg (by omega : ¬ mp ≤ min (i + 1) w)]
        simp [hcase]
  rw [hpartA]
  have hwin := windowAt_replicate_concat_last (by omega) hwn c d
  have hgd : (List.replicate n c ++ [d]).getD n 0 = d := by
    have h := @getD_append_right_self (List.replicate n c) d 0
    rw [List.length_replicate] at h
    exact h
  simp only [List.filterMap_cons, List.filterMap_nil, hwin, hgd]
  rw [if_pos (by simp; omega)]

theorem abs_clipSym_le {c : ℝ} (hc : 0 ≤ c) (z : ℝ) : |clipSym c z| ≤ c := by
  rw [abs_le, clipSym]
  constructor
  · exact le_max_left _ _
  · exact max_le (by linarith) (min_le_left _ _)

theorem sampleVar_nonneg (l : List ℚ) : 0 ≤ sampleVar l := by
  have hsum : 0 ≤ (l.map (fun x => (x - listMean l) ^ 2)).sum := by
    apply List.sum_nonneg
    intro x hx
    obtain ⟨y, _, rfl⟩ := List.mem_map.mp hx
    positivity
  rcases l with _ | ⟨a, t⟩
  · simp [sampleVar]
  · apply div_nonneg hsum
    have h1 : (1 : ℚ) ≤ (((a :: t).length : ℕ) : ℚ) := by
      exact_mod_cast Nat.succ_le_of_lt (by simp)
    linarith

theorem rollingVarLast_nonneg {w mp : ℕ} {xs : List ℚ} {v : ℚ}
    (h : rollingVarLast w mp xs = some v) : 0 ≤ v := by
  rw [rollingVarLast] at h
  split at h
  · exact absurd h (by simp)
  · cases h
    exact sampleVar_nonneg _

theorem rows_map_fst (l : List ℕ) (fa fb : ℕ → Option ℚ) :
    ((l.filterMap fun d =>
      match fa d, fb d with
      | some x, some y => some (d, x, y)
      | _, _ => none).map fun r => r.1) =
    l.filter fun d => (fa d).isSome && (fb d).isSome := by
  induction l with
  | nil => simp
  | cons d t ih =>
    rcases hfa : fa d with _ | x <;> rcases hfb : fb d with _ | y <;>
      simp [List.filterMap_cons, List.filter_cons, hfa, hfb, ih]

theorem ffillAt_isSome (s : Series) (d : ℕ) :
    (ffillAt s d).isSome = ((datesOf s).any fun e => decide (e ≤ d)) := by
  rw [Bool.eq_iff_iff, ffillAt, Option.isSome_map', List.getLast?_isSome]
  rw [ne_eq, List.filter_eq_nil_iff]
  push_neg
  simp only [List.any_eq_true, datesOf, List.mem_map, decide_eq_true_eq]
  constructor
  · rintro ⟨p, hp, hle⟩
    exact ⟨p.1, ⟨p, hp, rfl⟩, by simpa using hle⟩
  · rintro ⟨e, ⟨p, hp, rfl⟩, hle⟩
    exact ⟨p, hp, by simpa using hle⟩

theorem lookupDate_isSome (s : Series) (d : ℕ) :
    (lookupDate s d).isSome = decide (d ∈ datesOf s) := by
  rw [Bool.eq_iff_iff, lookupDate, Option.isSome_map', List.find?_isSome]
  simp [datesOf, eq_comm]

theorem chinaEcon_align_dates (a b : Series) :
    datesOf (ChinaEcon.align_time_series a b).1 = specAlignedDates a b ∧
    datesOf (ChinaEcon.align_time_series a b).2 = specAlignedDates a b := by
  have hrows := rows_map_fst (unionDates a b) (ffillAt a) (ffillAt b)
  have hcond : ((unionDates a b).filter fun d => (ffillAt a d).isSome && (ffillAt b d).isSome) =
      specAlignedDates a b := by
    rw [specAlignedDates]
    apply List.filter_congr
    intro d _
    rw [ffillAt_isSome, ffillAt_isSome]
  constructor
  · simp only [ChinaEcon.align_time_series, datesOf, List.map_map]
    rw [show (Prod.fst ∘ fun r : ℕ × ℚ × ℚ => (r.1, r.2.1)) = fun r : ℕ × ℚ × ℚ => r.1 from rfl]
    rw [hrows, hcond]
  · simp only [ChinaEcon.align_time_series, datesOf, List.map_map]
    rw [show (Prod.fst ∘ fun r : ℕ × ℚ × ℚ => (r.1, r.2.2)) = fun r : ℕ × ℚ × ℚ => r.1 from rfl]
    rw [hrows, hcond]

theorem usEconYu_align_dates (a b : Series) (ha : a ≠ []) (hb : b ≠ []) :
    datesOf (UsEconYu.align_time_series a b).1 =
      (unionDates a b).filter fun d =>
        decide (d ∈ datesOf a) && decide (d ∈ datesOf b) := by
  have hrows := rows_map_fst (unionDates a b) (lookupDate a) (lookupDate b)
  rw [UsEconYu.align_time_series, if_neg (by simp [ha, hb])]
  simp only [datesOf, List.map_map]
  rw [show (Prod.fst ∘ fun r : ℕ × ℚ × ℚ => (r.1, r.2.1)) = fun r : ℕ × ℚ × ℚ => r.1 from rfl]
  rw [hrows]
  apply List.filter_congr
  intro d _
  rw [lookupDate_isSome, lookupDate_isSome]
  rfl

theorem chinaEcon_align_values (a b : Series) {p : ℕ × ℚ}
    (hp : p ∈ (ChinaEcon.align_time_series a b).1) : ffillAt a p.1 = some p.2 := by
  simp only [ChinaEcon.align_time_series, List.mem_map] at hp
  obtain ⟨r, hr, rfl⟩ := hp
  obtain ⟨d, _, hd⟩ := List.mem_filterMap.mp hr
  rcases hfa : ffillAt a d with _ | x <;> rcases hfb : ffillAt b d with _ | y <;>
    rw [hfa, hfb] at hd <;> simp at hd
  obtain ⟨rfl, rfl, rfl⟩ := hd
  exact hfa

theorem chinaEcon_align_values_right (a b : Series) {p : ℕ × ℚ}
    (hp : p ∈ (ChinaEcon.align_time_series a b).2) : ffillAt b p.1 = some p.2 := by
  simp only [ChinaEcon.align_time_series, List.mem_map] at hp
  obtain ⟨r, hr, rfl⟩ := hp
  obtain ⟨d, _, hd⟩ := List.mem_filterMap.mp hr
  rcases hfa : ffillAt a d with _ | x <;> rcases hfb : ffillAt b d with _ | y <;>
    rw [hfa, hfb] at hd <;> simp at hd
  obtain ⟨rfl, rfl, rfl⟩ := hd
  exact hfb

theorem clipSym_zero {c : ℝ} (hc : 0 ≤ c) : clipSym c 0 = 0 := by
  rw [clipSym, min_eq_right hc, max_eq_right (by linarith)]

theorem usEconYu_calc_eq {w : ℕ} {xs : List ℚ} (h0 : ¬(xs = [] ∨ xs.length < w))
    {b m v : ℚ} (hb : (UsEconYu.biasOf w xs).getLast? = some b)
    (hm : rollingMeanLast w (4 * w / 5) (UsEconYu.biasOf w xs) = some m)
    (hv : rollingVarLast w (4 * w / 5) (UsEconYu.biasOf w xs) = some v) :
    UsEconYu.calculate_bias_z_score w xs =
      some (some (((b : ℝ) - (m : ℝ)) / (Real.sqrt (v : ℝ) + 1 / 10 ^ 10)), b) := by
  simp only [UsEconYu.calculate_bias_z_score, if_neg h0, hb, hm, hv]

theorem usEconYu_calc_inv {w : ℕ} {xs : List ℚ} {z : ℝ} {b : ℚ}
    (h : UsEconYu.calculate_bias_z_score w xs = some (some z, b)) :
    ∃ m v, rollingMeanLast w (4 * w / 5) (UsEconYu.biasOf w xs) = some m ∧
      rollingVarLast w (4 * w / 5) (UsEconYu.biasOf w xs) = some v ∧
      z = ((b : ℝ) - (m : ℝ)) / (Real.sqrt (v : ℝ) + 1 / 10 ^ 10) := by
  rw [UsEconYu.calculate_bias_z_score] at h
  simp only [] at h
  split at h
  · exact absurd h (by simp)
  · split at h
    · exact absurd h (by simp)
    · rename_i b0 hb
      simp only [Option.some.injEq, Prod.mk.injEq] at h
      obtain ⟨hz, rfl⟩ := h
      split at hz
      · rename_i m0 v0 hm hv
        refine ⟨m0, v0, hm, hv, ?_⟩
        exact ((Option.some.injEq _ _).mp hz).symm
      · exact absurd hz (by simp)

theorem chinaEcon_classify_ne_gray {α : Type} [LinearOrderedField α] (z : α) :
    ChinaEcon.classify z ≠ .gray := by
  rw [ChinaEcon.classify]
  split_ifs <;> simp

theorem chinaStock_classify_ne_gray {α : Type} [LinearOrderedField α] (z : α) :
    ChinaStock.classify z ≠ .gray := by
  rw [ChinaStock.classify]
  split_ifs <;> simp

/-! ### Claim theorems -/

/-- C9 (amended): the one-sided classifiers are monotone in riskZ — the
china_econ and china_stock levelings and usa_stockESPT's get_status_text
with inverse = false never decrease the severity rank
(Gray < Green < Yellow < Orange < Red) as z grows, and with inverse = true
get_status_text is monotone in the direction-adjusted score -z (so
increasing raw z never increases the rank there).  The two-sided
us_econESPTyu get_status_color is excluded: it is not monotone. -/
theorem c9_classification_monotone (z1 z2 : ℚ) (h : z1 ≤ z2) :
    severityRank (ChinaEcon.classify z1) ≤ severityRank (ChinaEcon.classify z2) ∧
    severityRank (ChinaStock.classify z1) ≤ severityRank (ChinaStock.classify z2) ∧
    severityRank (UsaStock.get_status_text z1 false).1 ≤
      severityRank (UsaStock.get_status_text z2 false).1 ∧
    severityRank (UsaStock.get_status_text z2 true).1 ≤
      severityRank (UsaStock.get_status_text z1 true).1 := by
  refine ⟨?_, ?_, ?_, ?_⟩ <;>
  · simp only [ChinaEcon.classify, ChinaStock.classify, UsaStock.get_status_text,
      Bool.not_false, Bool.not_true, if_true, if_false]
    split_ifs <;> simp_all [severityRank] <;> linarith

/-- C9 witness: the monotonicity instantiated at z1 = 0 ≤ 3 = z2. -/
theorem c9_witness :
    severityRank (ChinaEcon.classify (0 : ℚ)) ≤ severityRank (ChinaEcon.classify (3 : ℚ)) ∧
    severityRank (ChinaStock.classify (0 : ℚ)) ≤ severityRank (ChinaStock.classify (3 : ℚ)) ∧
    severityRank (UsaStock.get_status_text (0 : ℚ) false).1 ≤
      severityRank (UsaStock.get_status_text (3 : ℚ) false).1 ∧
    severityRank (UsaStock.get_status_text (3 : ℚ) true).1 ≤
      severityRank (UsaStock.get_status_text (0 : ℚ) true).1 :=
  c9_classification_monotone 0 3 (by norm_num)

/-- C9 counterexample: us_econESPTyu's get_status_color (cited by the claim)
is not monotone: raising z from -1.2 to 0 with inverse = false moves the
level from Yellow (rank 2) down to Green (rank 1), because the classifier
is two-sided in |z|. -/
theorem c9_counterexample :
    (-6 / 5 : ℚ) ≤ 0 ∧
    UsEconYu.get_status_color (some (-6 / 5)) false = .yellow ∧
    UsEconYu.get_status_color (some 0) false = .green ∧
    ¬ severityRank (UsEconYu.statusColorLevel (UsEconYu.get_status_color (some (-6 / 5)) false)) ≤
        severityRank (UsEconYu.statusColorLevel (UsEconYu.get_status_color (some 0) false)) := by
  have h1 : UsEconYu.get_status_color (some (-6 / 5)) false = .yellow := by
    rw [UsEconYu.get_status_color]
    norm_num [abs_eq_max_neg]
  have h2 : UsEconYu.get_status_color (some 0) false = .green := by
    rw [UsEconYu.get_status_color]
    norm_num [abs_eq_max_neg]
  refine ⟨by norm_num, h1, h2, ?_⟩
  rw [h1, h2]
  simp [UsEconYu.statusColorLevel, severityRank]

set_option maxRecDepth 4000 in
/-- C6: direction adjustment is involutive on sign.  The scorers that take
the direction flag (china_econ and china_stock calculate_robust_z_score)
return with `inverse = true` exactly the negation of the riskZ they return
with `inverse = false`; usa_stockESPT keeps z unchanged and instead mirrors
the classification: get_status_text at z with the flag set equals
get_status_text at -z with the flag unset. -/
theorem c6_direction_involution :
    (∀ series : List ℚ, (ChinaEcon.calculate_robust_z_score series true).1 =
      -(ChinaEcon.calculate_robust_z_score series false).1) ∧
    (∀ series : List ℚ, (ChinaStock.calculate_robust_z_score series true).1 =
      -(ChinaStock.calculate_robust_z_score series false).1) ∧
    (∀ z : ℚ, (UsaStock.get_status_text z true).1 = (UsaStock.get_status_text (-z) false).1) := by
  refine ⟨?_, ?_, ?_⟩
  · intro series
    simp only [ChinaEcon.calculate_robust_z_score]
    by_cases hlen : series.length < 201
    · simp [hlen]
    · simp only [if_neg hlen]
      rcases hb : (biasList 252 201 series).getLast? with _ | b
      · simp
      · rcases hm : rollingMeanLast 252 201 (biasList 252 201 series) with _ | m <;> simp [hm]
  · intro series
    simp only [ChinaStock.calculate_robust_z_score]
    by_cases hlen : series.length < 214
    · simp [hlen]
    · simp only [if_neg hlen]
      rcases hb : (biasList 252 214 series).getLast? with _ | b <;> simp
  · intro z
    simp only [UsaStock.get_status_text, Bool.not_true, Bool.not_false, if_true, if_false]
    split_ifs <;> simp_all <;> linarith

set_option maxRecDepth 4000 in
/-- C3 (amended): in the variants that Winsorize, riskZ always lies inside
the configured clip bound — 4.0 for china_econ_ESPT, 4.5 for
china_stock_ESPT and usa_stockESPT — for every input series and direction
flag.  us_econESPTyu's calculate_bias_z_score applies no clipping at all and
is excluded (see the counterexample exceeding 4.5). -/
theorem c3_winsorization_bounds :
    (∀ (series : List ℚ) (inverse : Bool),
      |(ChinaEcon.calculate_robust_z_score series inverse).1| ≤ 4) ∧
    (∀ (series : List ℚ) (inverse : Bool),
      |(ChinaStock.calculate_robust_z_score series inverse).1| ≤ 9 / 2) ∧
    (∀ series : List ℚ, |(UsaStock.calculate_robust_z_score series).1| ≤ 9 / 2) := by
  have habs : ∀ c z : ℝ, 0 ≤ c → |if True then clipSym c z else clipSym c z| ≤ c := by
    intro c z hc
    simpa using abs_clipSym_le hc z
  refine ⟨?_, ?_, ?_⟩
  · intro series inverse
    simp only [ChinaEcon.calculate_robust_z_score]
    by_cases hlen : series.length < 201
    · simp [hlen]
    · simp only [if_neg hlen]
      rcases hb : (biasList 252 201 series).getLast? with _ | b
      · simp
      · rcases hm : rollingMeanLast 252 201 (biasList 252 201 series) with _ | m <;>
          simp only [hm]
        · simp
        · rcases inverse <;>
            simp only [Bool.false_eq_true, if_false, if_true, abs_neg] <;>
            exact abs_clipSym_le (by norm_num) _
  · intro series inverse
    simp only [ChinaStock.calculate_robust_z_score]
    by_cases hlen : series.length < 214
    · simp [hlen] <;> norm_num
    · simp only [if_neg hlen]
      rcases hb : (biasList 252 214 series).getLast? with _ | b
      · simp <;> norm_num
      · rcases inverse <;>
          simp only [Bool.false_eq_true, if_false, if_true, abs_neg] <;>
          exact abs_clipSym_le (by norm_num) _
  · intro series
    simp only [UsaStock.calculate_robust_z_score]
    by_cases hlen : series.length < 214
    · simp [hlen] <;> norm_num
    · simp only [if_neg hlen]
      by_cases hblen : (biasList 252 214 series).length < 252
      · simp [hblen] <;> norm_num
      · simp only [if_neg hblen]
        rcases hm : rollingMeanLast 252 252 (biasList 252 214 series) with _ | m <;>
          rcases hv : rollingVarLast 252 252 (biasList 252 214 series) with _ | v <;>
          simp only [hm, hv]
        · simp <;> norm_num
        · simp <;> norm_num
        · simp <;> norm_num
        · by_cases hσ : Real.sqrt (v : ℝ) = 0
          · simp [hσ] <;> norm_num
          · simp only [if_neg hσ]
            exact abs_clipSym_le (by norm_num) _

theorem usEconYu_xsC3_bias :
    UsEconYu.biasOf 25 (List.replicate 43 1 ++ [26]) =
      List.replicate 24 0 ++ [(240000000000 / 20000000001 : ℚ)] := by
  have h := biasListEps_replicate_concat (by norm_num : 1 ≤ 4 * 25 / 5)
    (by norm_num : 4 * 25 / 5 ≤ 25) (by norm_num : 25 ≤ 43 + 1) (1 / 10 ^ 10) (1 : ℚ) 26
  rw [UsEconYu.biasOf, h]
  have hM : listMean (List.replicate (25 - 1) (1 : ℚ) ++ [26]) = 2 := by
    simp only [listMean, List.sum_append, List.sum_replicate, List.length_append,
      List.length_replicate, List.sum_cons, List.sum_nil, List.length_cons, List.length_nil,
      nsmul_eq_mul]
    norm_num
  rw [hM]
  norm_num

theorem usEconYu_xsC3_eval :
    UsEconYu.calculate_bias_z_score 25 (List.replicate 43 1 ++ [26]) =
      some (some ((((240000000000 / 20000000001 : ℚ) : ℝ) -
          (((240000000000 / 20000000001) / 25 : ℚ) : ℝ)) /
        (Real.sqrt ((((240000000000 / 20000000001 : ℚ) ^ 2 / 25 : ℚ)) : ℝ) + 1 / 10 ^ 10)),
        (240000000000 / 20000000001 : ℚ)) := by
  have hb : (UsEconYu.biasOf 25 (List.replicate 43 1 ++ [26])).getLast? =
      some (240000000000 / 20000000001 : ℚ) := by
    rw [usEconYu_xsC3_bias, List.getLast?_concat]
  have hm : rollingMeanLast 25 (4 * 25 / 5) (UsEconYu.biasOf 25 (List.replicate 43 1 ++ [26])) =
      some ((240000000000 / 20000000001) / 25 : ℚ) := by
    rw [usEconYu_xsC3_bias]
    have h := rollingMeanLast_replicate_concat (by norm_num : 4 * 25 / 5 ≤ 25)
      (by norm_num : 1 ≤ 25) (by norm_num : 25 ≤ 24 + 1) (240000000000 / 20000000001 : ℚ)
    rw [h]
    norm_num
  have hv : rollingVarLast 25 (4 * 25 / 5) (UsEconYu.biasOf 25 (List.replicate 43 1 ++ [26])) =
      some ((240000000000 / 20000000001 : ℚ) ^ 2 / 25) := by
    rw [usEconYu_xsC3_bias]
    have h := rollingVarLast_replicate_concat (by norm_num : 4 * 25 / 5 ≤ 25)
      (by norm_num : 2 ≤ 25) (by norm_num : 25 ≤ 24 + 1) (240000000000 / 20000000001 : ℚ)
    rw [h]
    norm_num
  have h0 : ¬((List.replicate 43 (1 : ℚ) ++ [26]) = [] ∨
      (List.replicate 43 (1 : ℚ) ++ [26]).length < 25) := by
    simp
  exact usEconYu_calc_eq h0 hb hm hv

/-- C3 counterexample: the claim bounds |riskZ| by the configured clip
(4.0 or 4.5), but us_econESPTyu.calculate_bias_z_score — one of the two
cited scorers — clips nothing: with window 25 on the finite series of 43
ones followed by 26, the returned z-score exceeds 4.5 (it is about 4.8). -/
theorem c3_counterexample :
    9 / 2 < zOut (UsEconYu.calculate_bias_z_score 25 (List.replicate 43 1 ++ [26])) := by
  rw [usEconYu_xsC3_eval]
  have hsqrt : Real.sqrt ((((240000000000 / 20000000001 : ℚ) ^ 2 / 25 : ℚ)) : ℝ) =
      ((240000000000 / 20000000001 : ℚ) : ℝ) / 5 := by
    rw [show ((((240000000000 / 20000000001 : ℚ) ^ 2 / 25 : ℚ)) : ℝ) =
        (((240000000000 / 20000000001 : ℚ) : ℝ) / 5) ^ 2 by push_cast; ring]
    exact Real.sqrt_sq (by positivity)
  show 9 / 2 < _
  rw [zOut, hsqrt]
  have hc : ((240000000000 / 20000000001 : ℚ) : ℝ) = 240000000000 / 20000000001 := by
    norm_num
  rw [show (((240000000000 / 20000000001) / 25 : ℚ) : ℝ) =
      ((240000000000 / 20000000001 : ℚ) : ℝ) / 25 by push_cast; ring]
  rw [hc]
  rw [lt_div_iff (by norm_num)]
  norm_num

theorem usEconYu_xsC4_bias :
    UsEconYu.biasOf 25 (List.replicate 43 1 ++ [1 + 1 / 10 ^ 10]) =
      List.replicate 24 0 ++ [(24 / 250000000026 : ℚ)] := by
  have h := biasListEps_replicate_concat (by norm_num : 1 ≤ 4 * 25 / 5)
    (by norm_num : 4 * 25 / 5 ≤ 25) (by norm_num : 25 ≤ 43 + 1) (1 / 10 ^ 10) (1 : ℚ)
    (1 + 1 / 10 ^ 10)
  rw [UsEconYu.biasOf, h]
  have hM : listMean (List.replicate (25 - 1) (1 : ℚ) ++ [1 + 1 / 10 ^ 10]) =
      250000000001 / 250000000000 := by
    simp only [listMean, List.sum_append, List.sum_replicate, List.length_append,
      List.length_replicate, List.sum_cons, List.sum_nil, List.length_cons, List.length_nil,
      nsmul_eq_mul]
    norm_num
  rw [hM]
  norm_num

theorem usEconYu_xsC4_eval :
    UsEconYu.calculate_bias_z_score 25 (List.replicate 43 1 ++ [1 + 1 / 10 ^ 10]) =
      some (some ((((24 / 250000000026 : ℚ) : ℝ) -
          (((24 / 250000000026) / 25 : ℚ) : ℝ)) /
        (Real.sqrt ((((24 / 250000000026 : ℚ) ^ 2 / 25 : ℚ)) : ℝ) + 1 / 10 ^ 10)),
        (24 / 250000000026 : ℚ)) := by
  have hb : (UsEconYu.biasOf 25 (List.replicate 43 1 ++ [1 + 1 / 10 ^ 10])).getLast? =
      some (24 / 250000000026 : ℚ) := by
    rw [usEconYu_xsC4_bias, List.getLast?_concat]
  have hm : rollingMeanLast 25 (4 * 25 / 5)
      (UsEconYu.biasOf 25 (List.replicate 43 1 ++ [1 + 1 / 10 ^ 10])) =
      some ((24 / 250000000026) / 25 : ℚ) := by
    rw [usEconYu_xsC4_bias]
    have h := rollingMeanLast_replicate_concat (by norm_num : 4 * 25 / 5 ≤ 25)
      (by norm_num : 1 ≤ 25) (by norm_num : 25 ≤ 24 + 1) (24 / 250000000026 : ℚ)
    rw [h]
    norm_num
  have hv : rollingVarLast 25 (4 * 25 / 5)
      (UsEconYu.biasOf 25 (List.replicate 43 1 ++ [1 + 1 / 10 ^ 10])) =
      some ((24 / 250000000026 : ℚ) ^ 2 / 25) := by
    rw [usEconYu_xsC4_bias]
    have h := rollingVarLast_replicate_concat (by norm_num : 4 * 25 / 5 ≤ 25)
      (by norm_num : 2 ≤ 25) (by norm_num : 25 ≤ 24 + 1) (24 / 250000000026 : ℚ)
    rw [h]
    norm_num
  have h0 : ¬((List.replicate 43 (1 : ℚ) ++ [1 + 1 / 10 ^ 10]) = [] ∨
      (List.replicate 43 (1 : ℚ) ++ [1 + 1 / 10 ^ 10]).length < 25) := by
    simp
  exact usEconYu_calc_eq h0 hb hm hv

theorem usEconYu_xsC4_sqrt :
    Real.sqrt ((((24 / 250000000026 : ℚ) ^ 2 / 25 : ℚ)) : ℝ) = 24 / 1250000000130 := by
  rw [show ((((24 / 250000000026 : ℚ) ^ 2 / 25 : ℚ)) : ℝ) =
      ((24 : ℝ) / 1250000000130) ^ 2 by push_cast; ring]
  exact Real.sqrt_sq (by positivity)

/-- C4 counterexample: the claim says that when the rolling dispersion at
the evaluation point is below the noise floor, the effective divisor is
exactly the floor.  On the cited us_econESPTyu scorer (window 25, series of
43 ones followed by 1 + 1e-10), the dispersion at the last point is
24/1250000000130, strictly positive and below both candidate floors (the
code's additive epsilon 1e-10 and the spec's 0.5%), yet the z actually
produced is the one obtained by dividing by std + epsilon, which differs
from what dividing by either floor value would give — the divisor is not
the floor. -/
theorem c4_counterexample :
    rollingVarLast 25 (4 * 25 / 5)
        (UsEconYu.biasOf 25 (List.replicate 43 1 ++ [1 + 1 / 10 ^ 10])) =
      some ((24 / 250000000026 : ℚ) ^ 2 / 25) ∧
    (0 : ℝ) < Real.sqrt ((((24 / 250000000026 : ℚ) ^ 2 / 25 : ℚ)) : ℝ) ∧
    Real.sqrt ((((24 / 250000000026 : ℚ) ^ 2 / 25 : ℚ)) : ℝ) < 1 / 10 ^ 10 ∧
    Real.sqrt ((((24 / 250000000026 : ℚ) ^ 2 / 25 : ℚ)) : ℝ) < 1 / 200 ∧
    zOut (UsEconYu.calculate_bias_z_score 25 (List.replicate 43 1 ++ [1 + 1 / 10 ^ 10])) =
      ((24 : ℝ) / 250000000026 - 24 / 6250000000650) / (24 / 1250000000130 + 1 / 10 ^ 10) ∧
    zOut (UsEconYu.calculate_bias_z_score 25 (List.replicate 43 1 ++ [1 + 1 / 10 ^ 10])) ≠
      ((24 : ℝ) / 250000000026 - 24 / 6250000000650) / (1 / 10 ^ 10) ∧
    zOut (UsEconYu.calculate_bias_z_score 25 (List.replicate 43 1 ++ [1 + 1 / 10 ^ 10])) ≠
      ((24 : ℝ) / 250000000026 - 24 / 6250000000650) / (1 / 200) := by
  have hvz : rollingVarLast 25 (4 * 25 / 5)
      (UsEconYu.biasOf 25 (List.replicate 43 1 ++ [1 + 1 / 10 ^ 10])) =
      some ((24 / 250000000026 : ℚ) ^ 2 / 25) := by
    rw [usEconYu_xsC4_bias]
    have h := rollingVarLast_replicate_concat (by norm_num : 4 * 25 / 5 ≤ 25)
      (by norm_num : 2 ≤ 25) (by norm_num : 25 ≤ 24 + 1) (24 / 250000000026 : ℚ)
    rw [h]
    norm_num
  have hz : zOut (UsEconYu.calculate_bias_z_score 25 (List.replicate 43 1 ++ [1 + 1 / 10 ^ 10])) =
      ((24 : ℝ) / 250000000026 - 24 / 6250000000650) / (24 / 1250000000130 + 1 / 10 ^ 10) := by
    rw [usEconYu_xsC4_eval, zOut, usEconYu_xsC4_sqrt]
    norm_num
  refine ⟨hvz, ?_, ?_, ?_, hz, ?_, ?_⟩
  · rw [usEconYu_xsC4_sqrt]
    norm_num
  · rw [usEconYu_xsC4_sqrt]
    norm_num
  · rw [usEconYu_xsC4_sqrt]
    norm_num
  · rw [hz]
    norm_num
  · rw [hz]
    norm_num

set_option maxRecDepth 4000 in
/-- C4 (amended): no scorer floors the dispersion.  us_econESPTyu always
adds the constant epsilon = 1e-10 to the dispersion: every computed z equals
(bias - center) / (std + 1e-10) with std ≥ 0, so the divisor is at least
1e-10 — which bounds |z| by |bias - center| * 1e10 and prevents any
divide-by-near-zero blow-up — but the divisor equals the constant itself
only когда std = 0.  The china_econ scorer has no floor at all: it merely
guards exactly-zero (or undefined) dispersion by setting z = 0. -/
theorem c4_no_floor_but_bounded :
    (∀ (w : ℕ) (xs : List ℚ) (z : ℝ) (b : ℚ),
      UsEconYu.calculate_bias_z_score w xs = some (some z, b) →
      ∃ m v : ℚ, rollingMeanLast w (4 * w / 5) (UsEconYu.biasOf w xs) = some m ∧
        rollingVarLast w (4 * w / 5) (UsEconYu.biasOf w xs) = some v ∧ 0 ≤ v ∧
        z = ((b : ℝ) - (m : ℝ)) / (Real.sqrt (v : ℝ) + 1 / 10 ^ 10) ∧
        (1 : ℝ) / 10 ^ 10 ≤ Real.sqrt (v : ℝ) + 1 / 10 ^ 10 ∧
        |z| ≤ |(b : ℝ) - (m : ℝ)| * 10 ^ 10) ∧
    (∀ (series : List ℚ) (inverse : Bool),
      rollingVarLast 252 201 (biasList 252 201 series) = some 0 →
      (ChinaEcon.calculate_robust_z_score series inverse).1 = 0) := by
  constructor
  · intro w xs z b h
    obtain ⟨m, v, hm, hv, hz⟩ := usEconYu_calc_inv h
    have hv0 : (0 : ℚ) ≤ v := rollingVarLast_nonneg hv
    have hs0 : (0 : ℝ) ≤ Real.sqrt (v : ℝ) := Real.sqrt_nonneg _
    have heps : (0 : ℝ) < 1 / 10 ^ 10 := by norm_num
    have hdiv : (1 : ℝ) / 10 ^ 10 ≤ Real.sqrt (v : ℝ) + 1 / 10 ^ 10 := by linarith
    refine ⟨m, v, hm, hv, hv0, hz, hdiv, ?_⟩
    rw [hz, abs_div, abs_of_pos (by linarith : (0:ℝ) < Real.sqrt (v : ℝ) + 1 / 10 ^ 10)]
    calc |(b : ℝ) - (m : ℝ)| / (Real.sqrt (v : ℝ) + 1 / 10 ^ 10)
        ≤ |(b : ℝ) - (m : ℝ)| / (1 / 10 ^ 10) :=
          div_le_div_of_nonneg_left (abs_nonneg _) heps hdiv
      _ = |(b : ℝ) - (m : ℝ)| * 10 ^ 10 := by
          rw [div_div_eq_mul_div, div_one]
  · intro series inverse hv
    simp only [ChinaEcon.calculate_robust_z_score]
    by_cases hlen : series.length < 201
    · simp [hlen]
    · simp only [if_neg hlen]
      rcases hb : (biasList 252 201 series).getLast? with _ | b
      · simp
      · rcases hm : rollingMeanLast 252 201 (biasList 252 201 series) with _ | m
        · simp [hm]
        · simp only [hm]
          rw [hv]
          simp only [Rat.cast_zero, Real.sqrt_zero, eq_self_iff_true, if_true]
          rw [clipSym_zero (by norm_num)]
          rcases inverse <;> simp

/-- C4 witness: the divisor characterization applied at the concrete C4
input (window 25, 43 ones then 1 + 1e-10), and the china_econ zero-guard
applied to the constant series of 401 ones, whose bias dispersion is
exactly 0. -/
theorem c4_witness :
    (∃ m v : ℚ,
      rollingMeanLast 25 (4 * 25 / 5)
          (UsEconYu.biasOf 25 (List.replicate 43 1 ++ [1 + 1 / 10 ^ 10])) = some m ∧
      rollingVarLast 25 (4 * 25 / 5)
          (UsEconYu.biasOf 25 (List.replicate 43 1 ++ [1 + 1 / 10 ^ 10])) = some v ∧
      0 ≤ v ∧
      (((24 / 250000000026 : ℚ) : ℝ) - (((24 / 250000000026) / 25 : ℚ) : ℝ)) /
          (Real.sqrt ((((24 / 250000000026 : ℚ) ^ 2 / 25 : ℚ)) : ℝ) + 1 / 10 ^ 10) =
        (((24 / 250000000026 : ℚ) : ℝ) - (m : ℝ)) / (Real.sqrt (v : ℝ) + 1 / 10 ^ 10) ∧
      (1 : ℝ) / 10 ^ 10 ≤ Real.sqrt (v : ℝ) + 1 / 10 ^ 10 ∧
      |(((24 / 250000000026 : ℚ) : ℝ) - (((24 / 250000000026) / 25 : ℚ) : ℝ)) /
          (Real.sqrt ((((24 / 250000000026 : ℚ) ^ 2 / 25 : ℚ)) : ℝ) + 1 / 10 ^ 10)| ≤
        |((24 / 250000000026 : ℚ) : ℝ) - (m : ℝ)| * 10 ^ 10) ∧
    (ChinaEcon.calculate_robust_z_score (List.replicate 401 1) false).1 = 0 := by
  constructor
  · obtain ⟨m, v, hm, hv, hv0, hz, hdiv, habs⟩ :=
      c4_no_floor_but_bounded.1 25 (List.replicate 43 1 ++ [1 + 1 / 10 ^ 10]) _ _
        usEconYu_xsC4_eval
    exact ⟨m, v, hm, hv, hv0, hz, hdiv, habs⟩
  · apply c4_no_floor_but_bounded.2
    rw [biasList_replicate (by norm_num) (by norm_num) (by norm_num : (1 : ℚ) ≠ 0)]
    exact rollingVarLast_replicate_zero (by norm_num) (by norm_num)

set_option maxRecDepth 4000 in
/-- C2 (amended): every deviation scorer returns riskZ = 0 for a series
shorter than its minimum window — never a computed z.  Only usa_stockESPT
carries an explicit insufficient-data marker (status 1), which
analyze_indicator turns into a Gray record with z = 0 and text 数据不足;
china_stock_ESPT returns the bare pair (0, 0) with no marker, and its
single-asset fetch path re-checks only emptiness, so a short non-empty
series there is classified Yellow, not Gray (see the counterexample).
china_econ_ESPT re-checks the minimum length inside fetch_and_analyze and
degrades a short single-asset series to the Gray error record. -/
theorem c2_short_series_zero :
    (∀ (xs : List ℚ) (inverse : Bool), xs.length < 214 →
      ChinaStock.calculate_robust_z_score xs inverse = (0, 0)) ∧
    (∀ xs : List ℚ, xs.length < 214 →
      UsaStock.calculate_robust_z_score xs = (0, 0, 1)) ∧
    (∀ (xs : List ℚ) (inverse : Bool), xs ≠ [] → xs.length < 214 →
      (UsaStock.analyze_indicator xs inverse).level = Level.gray ∧
      (UsaStock.analyze_indicator xs inverse).z = 0 ∧
      (UsaStock.analyze_indicator xs inverse).text = "数据不足") ∧
    (∀ (p : Series) (inverse : Bool), p ≠ [] → p.length < 302 →
      ChinaEcon.fetch_and_analyze (SeriesSpec.direct p none) inverse =
        { z := 0, bias := 0, level := Level.gray, msg := "Error" }) := by
  refine ⟨?_, ?_, ?_, ?_⟩
  · intro xs inverse h
    simp [ChinaStock.calculate_robust_z_score, h]
  · intro xs h
    simp [UsaStock.calculate_robust_z_score, h]
  · intro xs inverse hne h
    have hcalc : UsaStock.calculate_robust_z_score xs = (0, 0, 1) := by
      simp [UsaStock.calculate_robust_z_score, h]
    rw [UsaStock.analyze_indicator, if_neg hne]
    simp [hcalc]
  · intro p inverse hne h
    have hres : ChinaEcon.resolveSeries (SeriesSpec.direct p none) = .error "source dead" := by
      rw [ChinaEcon.resolveSeries]
      simp only [Option.isSome_none, Bool.false_eq_true, and_false, if_false]
      rw [if_pos (Or.inr h)]
    rw [ChinaEcon.fetch_and_analyze, ChinaEcon.fetchAndAnalyzeE, hres]
    rfl

/-- C2 witness: the short-series behavior at the concrete 3-point series
[1, 2, 3] (and its dated form for the china_econ fetch path). -/
theorem c2_witness :
    ChinaStock.calculate_robust_z_score [1, 2, 3] false = (0, 0) ∧
    UsaStock.calculate_robust_z_score [1, 2, 3] = (0, 0, 1) ∧
    (UsaStock.analyze_indicator [1, 2, 3] false).level = Level.gray ∧
    (UsaStock.analyze_indicator [1, 2, 3] false).z = 0 ∧
    (UsaStock.analyze_indicator [1, 2, 3] false).text = "数据不足" ∧
    ChinaEcon.fetch_and_analyze (SeriesSpec.direct [(0, 1), (1, 2), (2, 3)] none) false =
      { z := 0, bias := 0, level := Level.gray, msg := "Error" } := by
  obtain ⟨h1, h2, h3, h4⟩ := c2_short_series_zero
  obtain ⟨ha, hb, hc⟩ := h3 [1, 2, 3] false (by simp) (by norm_num)
  exact ⟨h1 [1, 2, 3] false (by norm_num), h2 [1, 2, 3] (by norm_num), ha, hb, hc,
    h4 [(0, 1), (1, 2), (2, 3)] false (by simp) (by norm_num)⟩

theorem chinaStock_fetch_of_ok (sp : SeriesSpec) (inv : Bool) (s : Series)
    (h : ChinaStock.resolveSeries sp = .ok s) :
    ChinaStock.fetch_and_analyze sp inv =
      { z := (ChinaStock.calculate_robust_z_score (s.map Prod.snd) inv).1
        bias := (ChinaStock.calculate_robust_z_score (s.map Prod.snd) inv).2
        level := ChinaStock.classify (ChinaStock.calculate_robust_z_score (s.map Prod.snd) inv).1
        text :=
          if ChinaStock.classify (ChinaStock.calculate_robust_z_score (s.map Prod.snd) inv).1 =
              .red then "极度异常"
          else if ChinaStock.classify
              (ChinaStock.calculate_robust_z_score (s.map Prod.snd) inv).1 = .orange then "显著偏离"
          else if ChinaStock.classify
              (ChinaStock.calculate_robust_z_score (s.map Prod.snd) inv).1 = .green then "低位安全"
          else "均值回归" } := by
  rw [ChinaStock.fetch_and_analyze, ChinaStock.fetchAndAnalyzeE, h]
  rfl

set_option maxRecDepth 4000 in
/-- C2 counterexample: the claim says a too-short series is always marked
insufficient and classified Gray.  In china_stock_ESPT (the cited file) the
single-asset path raises only on emptiness, so the non-empty 3-point series
[1, 2, 3] — far below the 214-point minimum — sails through: the scorer
returns riskZ 0 with no marker and the unconditional threshold chain
classifies it Yellow (均值回归), not Gray. -/
theorem c2_counterexample :
    ([(0, 1), (1, 2), (2, 3)] : Series).length < 214 ∧
    (ChinaStock.fetch_and_analyze (SeriesSpec.direct [(0, 1), (1, 2), (2, 3)] none) false).level =
      Level.yellow ∧
    (ChinaStock.fetch_and_analyze (SeriesSpec.direct [(0, 1), (1, 2), (2, 3)] none) false).z = 0 ∧
    (ChinaStock.fetch_and_analyze (SeriesSpec.direct [(0, 1), (1, 2), (2, 3)] none) false).text =
      "均值回归" ∧
    Level.yellow ≠ Level.gray := by
  have hres : ChinaStock.resolveSeries (SeriesSpec.direct [(0, 1), (1, 2), (2, 3)] none) =
      .ok [(0, 1), (1, 2), (2, 3)] := by
    rw [ChinaStock.resolveSeries]
    simp only [Option.isSome_none, Bool.false_eq_true, and_false, if_false]
    rw [if_neg (by simp)]
  have hcalc : ChinaStock.calculate_robust_z_score
      (([(0, 1), (1, 2), (2, 3)] : Series).map Prod.snd) false = (0, 0) := by
    simp [ChinaStock.calculate_robust_z_score]
  have hfa := chinaStock_fetch_of_ok _ false _ hres
  rw [hcalc] at hfa
  have hcl : ChinaStock.classify ((0 : ℝ × ℚ).1) = Level.yellow := by
    rw [ChinaStock.classify]
    norm_num
  rw [hfa]
  refine ⟨by norm_num, ?_, ?_, ?_, by simp⟩
  · simpa using hcl
  · simp
  · rw [show ChinaStock.classify ((0, (0 : ℚ)) : ℝ × ℚ).1 = Level.yellow by
      rw [ChinaStock.classify]; norm_num]
    simp

/-- C5 (amended): the union-and-forward-fill contract holds for the
china_econ/china_stock/usa_stock aligner: the aligned output carries exactly
the union dates on which both sides have an observation at or before that
date (`specAlignedDates`, the claim's characterization), and every kept
value is the forward-filled one.  The us_econESPTyu aligner (also cited by
the claim) does not forward-fill: for non-empty inputs it keeps exactly the
dates present in both calendars (an intersection). -/
theorem c5_alignment (a b : Series) :
    datesOf (ChinaEcon.align_time_series a b).1 = specAlignedDates a b ∧
    datesOf (ChinaEcon.align_time_series a b).2 = specAlignedDates a b ∧
    (∀ p ∈ (ChinaEcon.align_time_series a b).1, ffillAt a p.1 = some p.2) ∧
    (∀ p ∈ (ChinaEcon.align_time_series a b).2, ffillAt b p.1 = some p.2) ∧
    (a ≠ [] → b ≠ [] →
      datesOf (UsEconYu.align_time_series a b).1 =
        (unionDates a b).filter fun d =>
          decide (d ∈ datesOf a) && decide (d ∈ datesOf b)) := by
  refine ⟨(chinaEcon_align_dates a b).1, (chinaEcon_align_dates a b).2, ?_, ?_, ?_⟩
  · intro p hp
    exact chinaEcon_align_values a b hp
  · intro p hp
    exact chinaEcon_align_values_right a b hp
  · intro ha hb
    exact usEconYu_align_dates a b ha hb

/-- C5 witness: the alignment contract at the concrete series
a = [(1, 10), (3, 30)] and b = [(1, 5), (2, 6)]: the china_econ aligner
keeps the full overlap-union [1, 2, 3] with forward-filled values, the
us_econESPTyu aligner keeps only the common date [1]. -/
theorem c5_witness :
    datesOf (ChinaEcon.align_time_series [(1, 10), (3, 30)] [(1, 5), (2, 6)]).1 =
      specAlignedDates [(1, 10), (3, 30)] [(1, 5), (2, 6)] ∧
    ffillAt ([(1, 10), (3, 30)] : Series) 2 = some 10 ∧
    (2, (10 : ℚ)) ∈ (ChinaEcon.align_time_series [(1, 10), (3, 30)] [(1, 5), (2, 6)]).1 ∧
    ffillAt ([(1, 10), (3, 30)] : Series) (2, (10 : ℚ)).1 = some (2, (10 : ℚ)).2 ∧
    datesOf (UsEconYu.align_time_series [(1, 10), (3, 30)] [(1, 5), (2, 6)]).1 =
      (unionDates [(1, 10), (3, 30)] [(1, 5), (2, 6)]).filter fun d =>
        decide (d ∈ datesOf [(1, 10), (3, 30)]) && decide (d ∈ datesOf [(1, 5), (2, 6)]) := by
  have h := c5_alignment [(1, 10), (3, 30)] [(1, 5), (2, 6)]
  have hmem : (2, (10 : ℚ)) ∈ (ChinaEcon.align_time_series [(1, 10), (3, 30)] [(1, 5), (2, 6)]).1 := by
    decide
  exact ⟨h.1, by decide, hmem, h.2.2.1 _ hmem, h.2.2.2.2 (by decide) (by decide)⟩

/-- C5 counterexample: the claim asserts the union-and-forward-fill
behavior for both cited aligners, but us_econESPTyu.align_time_series drops
date 2 (present only in b, inside the overlap of the two calendars, and
forward-fillable on a) and date 3: it returns only the exact common dates.
On a = [(1, 10), (3, 30)], b = [(1, 5), (2, 6)] the claimed date set is
[1, 2, 3] while the us_econESPTyu aligner keeps [1]. -/
theorem c5_counterexample :
    specAlignedDates [(1, 10), (3, 30)] [(1, 5), (2, 6)] = [1, 2, 3] ∧
    datesOf (UsEconYu.align_time_series [(1, 10), (3, 30)] [(1, 5), (2, 6)]).1 = [1] ∧
    datesOf (UsEconYu.align_time_series [(1, 10), (3, 30)] [(1, 5), (2, 6)]).1 ≠
      specAlignedDates [(1, 10), (3, 30)] [(1, 5), (2, 6)] := by
  refine ⟨?_, ?_, ?_⟩ <;> decide

theorem chinaEcon_fetch_of_error (sp : SeriesSpec) (inv : Bool) (e : String)
    (h : ChinaEcon.resolveSeries sp = .error e) :
    ChinaEcon.fetch_and_analyze sp inv =
      { z := 0, bias := 0, level := .gray, msg := "Error" } := by
  rw [ChinaEcon.fetch_and_analyze, ChinaEcon.fetchAndAnalyzeE, h]
  rfl

theorem chinaEcon_fetchE_of_ok (sp : SeriesSpec) (inv : Bool) (s : Series)
    (h : ChinaEcon.resolveSeries sp = .ok s) :
    ChinaEcon.fetchAndAnalyzeE sp inv = .ok
      { z := (ChinaEcon.calculate_robust_z_score (s.map Prod.snd) inv).1
        bias := (ChinaEcon.calculate_robust_z_score (s.map Prod.snd) inv).2
        level := ChinaEcon.classify (ChinaEcon.calculate_robust_z_score (s.map Prod.snd) inv).1
        msg :=
          if ChinaEcon.classify (ChinaEcon.calculate_robust_z_score (s.map Prod.snd) inv).1 =
              .red then "极度异常"
          else if ChinaEcon.classify
              (ChinaEcon.calculate_robust_z_score (s.map Prod.snd) inv).1 = .orange then "显著偏离"
          else if ChinaEcon.classify
              (ChinaEcon.calculate_robust_z_score (s.map Prod.snd) inv).1 = .green then "低位安全"
          else "处于均值" } := by
  rw [ChinaEcon.fetchAndAnalyzeE, h]
  rfl

/-- C1: failure containment at the indicator boundary.  Every evaluation of
china_econ's fetch_and_analyze yields exactly one record (it is a total
function); whenever the try-body fails the caller receives the Gray record
with riskZ = 0 instead of an exception, and whenever it succeeds the
record's level comes from the threshold classifier and is never Gray.  A
batch evaluation therefore hands the aggregation stage one record per
configured indicator, whatever failed.  usa_stockESPT's analyze_indicator
likewise converts its failure case (an empty series) into a Gray record
with z = 0. -/
theorem c1_failure_containment :
    (∀ (sp : SeriesSpec) (inv : Bool) (e : String),
      ChinaEcon.fetchAndAnalyzeE sp inv = .error e →
      ChinaEcon.fetch_and_analyze sp inv =
        { z := 0, bias := 0, level := .gray, msg := "Error" }) ∧
    (∀ (sp : SeriesSpec) (inv : Bool) (r : ChinaEcon.Record),
      ChinaEcon.fetchAndAnalyzeE sp inv = .ok r →
      ChinaEcon.fetch_and_analyze sp inv = r ∧ r.level ≠ .gray) ∧
    (∀ batch : List (SeriesSpec × Bool),
      (batch.map fun sb => ChinaEcon.fetch_and_analyze sb.1 sb.2).length = batch.length) ∧
    (∀ inv : Bool, (UsaStock.analyze_indicator [] inv).level = .gray ∧
      (UsaStock.analyze_indicator [] inv).z = 0) := by
  refine ⟨?_, ?_, ?_, ?_⟩
  · intro sp inv e h
    rw [ChinaEcon.fetch_and_analyze, h]
  · intro sp inv r h
    refine ⟨by rw [ChinaEcon.fetch_and_analyze, h], ?_⟩
    rcases hres : ChinaEcon.resolveSeries sp with e | s
    · rw [ChinaEcon.fetchAndAnalyzeE, hres] at h
      exact Except.noConfusion h
    · rw [chinaEcon_fetchE_of_ok sp inv s hres] at h
      have hr := (Except.ok.inj h).symm
      rw [hr]
      exact chinaEcon_classify_ne_gray _
  · intro batch
    rw [List.length_map]
  · intro inv
    exact ⟨rfl, rfl⟩

/-- C1 witness: a dead data source (empty primary series, no fallback)
fails inside the try-body and is returned as the Gray zero record; the
302-point constant series resolves successfully and yields a non-Gray
(Yellow) record; a two-indicator batch yields exactly two records; the
usa_stockESPT empty-series case is Gray with z = 0. -/
theorem c1_witness :
    ChinaEcon.fetch_and_analyze (SeriesSpec.direct [] none) false =
      { z := 0, bias := 0, level := .gray, msg := "Error" } ∧
    (ChinaEcon.fetch_and_analyze
      (SeriesSpec.direct ((List.range 302).map fun i => (i, (1 : ℚ))) none) false =
      { z := 0, bias := 0, level := .yellow, msg := "处于均值" } ∧
      Level.yellow ≠ Level.gray) ∧
    ((([(SeriesSpec.direct [] none, false), (SeriesSpec.ratioPair [] [], true)]).map
      fun sb => ChinaEcon.fetch_and_analyze sb.1 sb.2).length = 2) ∧
    (UsaStock.analyze_indicator [] false).level = .gray ∧
    (UsaStock.analyze_indicator [] false).z = 0 := by
  have herr : ChinaEcon.fetchAndAnalyzeE (SeriesSpec.direct [] none) false =
      .error "source dead" := rfl
  have hres : ChinaEcon.resolveSeries
      (SeriesSpec.direct ((List.range 302).map fun i => (i, (1 : ℚ))) none) =
      .ok ((List.range 302).map fun i => (i, (1 : ℚ))) := by
    rw [ChinaEcon.resolveSeries]
    simp only [Option.isSome_none, Bool.false_eq_true, and_false, if_false]
    rw [if_neg (by simp)]
  have hsnd : (((List.range 302).map fun i => (i, (1 : ℚ))).map Prod.snd) =
      List.replicate 302 (1 : ℚ) := by
    rw [List.map_map]
    rw [show (Prod.snd ∘ fun i : ℕ => (i, (1 : ℚ))) = fun _ : ℕ => (1 : ℚ) from rfl]
    rw [List.map_const', List.length_range]
  have hbias : biasList 252 201 (List.replicate 302 (1 : ℚ)) = List.replicate 102 0 := by
    rw [biasList_replicate (by norm_num) (by norm_num) (by norm_num : (1 : ℚ) ≠ 0)]
  have hcalc : ChinaEcon.calculate_robust_z_score (List.replicate 302 (1 : ℚ)) false = (0, 0) := by
    rw [ChinaEcon.calculate_robust_z_score]
    rw [if_neg (by rw [List.length_replicate]; norm_num)]
    rw [hbias]
    simp only []
    rw [show (List.replicate 102 (0 : ℚ)).getLast? = some 0 by
      rw [show (102 : ℕ) = 101 + 1 from rfl, List.replicate_succ', List.getLast?_concat]]
    rw [rollingMeanLast_replicate_short (by norm_num)]
  have hok := chinaEcon_fetchE_of_ok _ false _ hres
  rw [hsnd, hcalc] at hok
  have hcl : ChinaEcon.classify ((0 : ℝ × ℚ).1) = Level.yellow := by
    rw [ChinaEcon.classify]
    norm_num
  refine ⟨c1_failure_containment.1 _ false "source dead" herr, ⟨?_, by simp⟩, ?_, ?_, ?_⟩
  · have hfa := (c1_failure_containment.2.1 _ false _ hok).1
    rw [hfa]
    have hcl0 : ChinaEcon.classify ((0, (0 : ℚ)) : ℝ × ℚ).1 = Level.yellow := by
      rw [ChinaEcon.classify]
      norm_num
    rw [hcl0]
    simp
  · exact c1_failure_containment.2.2.1 _
  · exact (c1_failure_containment.2.2.2 false).1
  · exact (c1_failure_containment.2.2.2 false).2

/-- C7 (amended): the veto is a hard override in both cited reports.  In
china_econ's and us_econESPT's generate_report a non-empty veto-message
list forces the most severe band (red) regardless of the weighted score,
the score thresholds (6 and 3) are consulted only when no veto fired, and
the veto list is non-empty exactly when one of the named predicates over
specific indicators' levels fires.  Message collection, however, differs:
china_econ surfaces every firing predicate's message together (the list's
length counts every firing predicate), while us_econESPT surfaces the two
red-crisis messages unconditionally but appends the early-warning message
only when neither crisis predicate fired, so a firing early-warning
predicate's message is suppressed whenever a crisis predicate also
fires. -/
theorem c7_veto_hard_override (batch : List (ℚ × List ChinaEcon.AggItem)) :
    ((ChinaEcon.vetoMsgsOf (ChinaEcon.coreStatusOf batch) ≠ [] →
      ChinaEcon.finalBandOf batch = .red) ∧
    (ChinaEcon.vetoMsgsOf (ChinaEcon.coreStatusOf batch) = [] →
      ChinaEcon.finalBandOf batch =
        (if 6 < ChinaEcon.totalScoreOf batch then .orange
         else if 3 < ChinaEcon.totalScoreOf batch then .yellow
         else .green)) ∧
    (ChinaEcon.vetoMsgsOf (ChinaEcon.coreStatusOf batch) ≠ [] ↔
      ((ChinaEcon.coreStatusOf batch).fx = some .red ∨
       (ChinaEcon.coreStatusOf batch).ashr = some .red ∨
       2 ≤ ChinaEcon.orangeCount (ChinaEcon.coreStatusOf batch))) ∧
    ((ChinaEcon.vetoMsgsOf (ChinaEcon.coreStatusOf batch)).length =
      (if (ChinaEcon.coreStatusOf batch).fx = some .red then 1 else 0) +
      (if (ChinaEcon.coreStatusOf batch).ashr = some .red then 1 else 0) +
      (if 2 ≤ ChinaEcon.orangeCount (ChinaEcon.coreStatusOf batch) then 1 else 0))) ∧
    ((UsEcon.vetoMsgsOf (UsEcon.coreStatusOf batch) ≠ [] →
      UsEcon.finalBandOf batch = .red) ∧
    (UsEcon.vetoMsgsOf (UsEcon.coreStatusOf batch) = [] →
      UsEcon.finalBandOf batch =
        (if 6 < UsEcon.totalScoreOf batch then .orange
         else if 3 < UsEcon.totalScoreOf batch then .yellow
         else .green)) ∧
    (UsEcon.vetoMsgsOf (UsEcon.coreStatusOf batch) ≠ [] ↔
      (((UsEcon.coreStatusOf batch).vix = some .red ∧
        (UsEcon.coreStatusOf batch).credit = some .red) ∨
       ((UsEcon.coreStatusOf batch).rates = some .red ∧
        (UsEcon.coreStatusOf batch).dollar = some .red) ∨
       (((UsEcon.coreStatusOf batch).vix = some .red ∨
         (UsEcon.coreStatusOf batch).vix = some .orange) ∧
        ((UsEcon.coreStatusOf batch).credit = some .red ∨
         (UsEcon.coreStatusOf batch).credit = some .orange)))) ∧
    ("流动性休克 (VIX spike + Credit freeze)" ∈
        UsEcon.vetoMsgsOf (UsEcon.coreStatusOf batch) ↔
      ((UsEcon.coreStatusOf batch).vix = some .red ∧
       (UsEcon.coreStatusOf batch).credit = some .red)) ∧
    ("紧缩风暴 (Rates + Dollar surge)" ∈
        UsEcon.vetoMsgsOf (UsEcon.coreStatusOf batch) ↔
      ((UsEcon.coreStatusOf batch).rates = some .red ∧
       (UsEcon.coreStatusOf batch).dollar = some .red)) ∧
    ("早期预警: 流动性压力上升" ∈
        UsEcon.vetoMsgsOf (UsEcon.coreStatusOf batch) ↔
      ((((UsEcon.coreStatusOf batch).vix = some .red ∨
         (UsEcon.coreStatusOf batch).vix = some .orange) ∧
        ((UsEcon.coreStatusOf batch).credit = some .red ∨
         (UsEcon.coreStatusOf batch).credit = some .orange)) ∧
       ¬((UsEcon.coreStatusOf batch).vix = some .red ∧
         (UsEcon.coreStatusOf batch).credit = some .red) ∧
       ¬((UsEcon.coreStatusOf batch).rates = some .red ∧
         (UsEcon.coreStatusOf batch).dollar = some .red)))) := by
  refine ⟨⟨?_, ?_, ?_, ?_⟩, ?_, ?_, ?_, ?_, ?_, ?_⟩
  · intro h
    rw [ChinaEcon.finalBandOf, if_pos h]
  · intro h
    rw [ChinaEcon.finalBandOf, if_neg (by simp [h])]
  · rw [ChinaEcon.vetoMsgsOf]
    split_ifs <;> simp_all
  · rw [ChinaEcon.vetoMsgsOf]
    split_ifs <;> simp_all
  · intro h
    rw [UsEcon.finalBandOf, if_pos h]
  · intro h
    rw [UsEcon.finalBandOf, if_neg (by simp [h])]
  · rw [UsEcon.vetoMsgsOf]
    split_ifs <;> simp_all
  · rw [UsEcon.vetoMsgsOf]
    split_ifs <;> simp_all
  · rw [UsEcon.vetoMsgsOf]
    split_ifs <;> simp_all
  · rw [UsEcon.vetoMsgsOf]
    split_ifs <;> simp_all

/-- C7 witness: in china_econ a batch whose currency-pressure indicator is
Red in a zero-weight dimension has weighted score 0 (banding alone would
say green) but is forced to the red band, while an all-green batch with no
veto lands in the green band through the thresholds; in us_econESPT a batch
with VIX red and HYG red in a zero-weight dimension likewise has weighted
score 0 yet is forced to the red band, and an all-green batch falls through
to the green band. -/
theorem c7_witness :
    ChinaEcon.vetoMsgsOf (ChinaEcon.coreStatusOf
      [(0, [{ name := "汇率信心 (USDCNY)", level := .red }]),
       (1, [{ name := "工业需求 (铜)", level := .green }])]) ≠ [] ∧
    ChinaEcon.totalScoreOf
      [(0, [{ name := "汇率信心 (USDCNY)", level := .red }]),
       (1, [{ name := "工业需求 (铜)", level := .green }])] = 0 ∧
    ChinaEcon.finalBandOf
      [(0, [{ name := "汇率信心 (USDCNY)", level := .red }]),
       (1, [{ name := "工业需求 (铜)", level := .green }])] = .red ∧
    ChinaEcon.vetoMsgsOf (ChinaEcon.coreStatusOf
      [((1 : ℚ), [({ name := "核心资产 (沪深300)", level := .green } : ChinaEcon.AggItem)])]) = [] ∧
    ChinaEcon.finalBandOf
      [((1 : ℚ), [({ name := "核心资产 (沪深300)", level := .green } : ChinaEcon.AggItem)])] = .green ∧
    UsEcon.vetoMsgsOf (UsEcon.coreStatusOf
      [(0, [{ name := "恐慌指数 (VIX)", level := .red },
            { name := "信用市场 (HYG)", level := .red }]),
       (1, [{ name := "美元流动性 (DXY)", level := .green }])]) ≠ [] ∧
    UsEcon.totalScoreOf
      [(0, [{ name := "恐慌指数 (VIX)", level := .red },
            { name := "信用市场 (HYG)", level := .red }]),
       (1, [{ name := "美元流动性 (DXY)", level := .green }])] = 0 ∧
    UsEcon.finalBandOf
      [(0, [{ name := "恐慌指数 (VIX)", level := .red },
            { name := "信用市场 (HYG)", level := .red }]),
       (1, [{ name := "美元流动性 (DXY)", level := .green }])] = .red ∧
    UsEcon.vetoMsgsOf (UsEcon.coreStatusOf
      [((1 : ℚ), [({ name := "美元流动性 (DXY)", level := .green } : ChinaEcon.AggItem)])]) = [] ∧
    UsEcon.finalBandOf
      [((1 : ℚ), [({ name := "美元流动性 (DXY)", level := .green } : ChinaEcon.AggItem)])] = .green := by
  have h1 : ChinaEcon.vetoMsgsOf (ChinaEcon.coreStatusOf
      [(0, [{ name := "汇率信心 (USDCNY)", level := .red }]),
       (1, [{ name := "工业需求 (铜)", level := .green }])]) ≠ [] := by decide
  have h2 : ChinaEcon.totalScoreOf
      [(0, [{ name := "汇率信心 (USDCNY)", level := .red }]),
       (1, [{ name := "工业需求 (铜)", level := .green }])] = 0 := by
    simp [ChinaEcon.totalScoreOf, ChinaEcon.scoreMap]
  have h4 : ChinaEcon.vetoMsgsOf (ChinaEcon.coreStatusOf
      [((1 : ℚ), [({ name := "核心资产 (沪深300)", level := .green } : ChinaEcon.AggItem)])]) = [] := by
    decide
  have h5 : ChinaEcon.totalScoreOf
      [((1 : ℚ), [({ name := "核心资产 (沪深300)", level := .green } : ChinaEcon.AggItem)])] = 0 := by
    simp [ChinaEcon.totalScoreOf, ChinaEcon.scoreMap]
  have h6 : UsEcon.vetoMsgsOf (UsEcon.coreStatusOf
      [(0, [{ name := "恐慌指数 (VIX)", level := .red },
            { name := "信用市场 (HYG)", level := .red }]),
       (1, [{ name := "美元流动性 (DXY)", level := .green }])]) ≠ [] := by decide
  have h7 : UsEcon.totalScoreOf
      [(0, [{ name := "恐慌指数 (VIX)", level := .red },
            { name := "信用市场 (HYG)", level := .red }]),
       (1, [{ name := "美元流动性 (DXY)", level := .green }])] = 0 := by
    simp [UsEcon.totalScoreOf, ChinaEcon.scoreMap]
  have h9 : UsEcon.vetoMsgsOf (UsEcon.coreStatusOf
      [((1 : ℚ), [({ name := "美元流动性 (DXY)", level := .green } : ChinaEcon.AggItem)])]) = [] := by
    decide
  have h10 : UsEcon.totalScoreOf
      [((1 : ℚ), [({ name := "美元流动性 (DXY)", level := .green } : ChinaEcon.AggItem)])] = 0 := by
    simp [UsEcon.totalScoreOf, ChinaEcon.scoreMap]
  refine ⟨h1, h2, ?_, h4, ?_, h6, h7, ?_, h9, ?_⟩
  · exact (c7_veto_hard_override _).1.1 h1
  · rw [(c7_veto_hard_override _).1.2.1 h4, h5]
    norm_num
  · exact (c7_veto_hard_override _).2.1 h6
  · rw [(c7_veto_hard_override _).2.2.1 h9, h10]
    norm_num

/-- C7 counterexample: in us_econESPT's generate_report, a batch whose VIX
and HYG indicators are both Red makes the early-warning predicate fire
(both levels are in the red/orange set), yet its message is absent from the
collected veto list: only the crisis message survives, because the
early-warning append is guarded by `if not veto_msgs`.  So not all firing
veto messages are surfaced together. -/
theorem c7_counterexample :
    ((UsEcon.coreStatusOf
        [((1 : ℚ), [({ name := "恐慌指数 (VIX)", level := .red } : ChinaEcon.AggItem),
              ({ name := "信用市场 (HYG)", level := .red } : ChinaEcon.AggItem)])]).vix =
        some .red ∨
      (UsEcon.coreStatusOf
        [((1 : ℚ), [({ name := "恐慌指数 (VIX)", level := .red } : ChinaEcon.AggItem),
              ({ name := "信用市场 (HYG)", level := .red } : ChinaEcon.AggItem)])]).vix =
        some .orange) ∧
    ((UsEcon.coreStatusOf
        [((1 : ℚ), [({ name := "恐慌指数 (VIX)", level := .red } : ChinaEcon.AggItem),
              ({ name := "信用市场 (HYG)", level := .red } : ChinaEcon.AggItem)])]).credit =
        some .red ∨
      (UsEcon.coreStatusOf
        [((1 : ℚ), [({ name := "恐慌指数 (VIX)", level := .red } : ChinaEcon.AggItem),
              ({ name := "信用市场 (HYG)", level := .red } : ChinaEcon.AggItem)])]).credit =
        some .orange) ∧
    UsEcon.vetoMsgsOf (UsEcon.coreStatusOf
      [((1 : ℚ), [({ name := "恐慌指数 (VIX)", level := .red } : ChinaEcon.AggItem),
            ({ name := "信用市场 (HYG)", level := .red } : ChinaEcon.AggItem)])]) =
      ["流动性休克 (VIX spike + Credit freeze)"] ∧
    "早期预警: 流动性压力上升" ∉ UsEcon.vetoMsgsOf (UsEcon.coreStatusOf
      [((1 : ℚ), [({ name := "恐慌指数 (VIX)", level := .red } : ChinaEcon.AggItem),
            ({ name := "信用市场 (HYG)", level := .red } : ChinaEcon.AggItem)])]) := by
  refine ⟨?_, ?_, ?_, ?_⟩ <;> decide

theorem gray_dim_sum (items : List ChinaEcon.AggItem)
    (h : ∀ it ∈ items, it.level = .gray) :
    (items.map fun it => ChinaEcon.scoreMap it.level).sum = 5 * items.length := by
  induction items with
  | nil => simp
  | cons a t ih =>
    rw [List.map_cons, List.sum_cons, ih (fun it hit => h it (List.mem_cons_of_mem a hit)),
      h a (List.mem_cons_self a t), List.length_cons]
    rw [ChinaEcon.scoreMap]
    push_cast
    ring

/-- C8: the composite weighted score maps levels to severities Red 10,
Orange 6, Yellow 3, Green 0 and Gray 5, averages within each dimension and
sums the averages weighted by the dimension weights; consequently a batch
in which every indicator is Gray, with non-empty dimensions and weights
summing to 1, scores exactly the neutral 5 — missing data neither clears
nor inflates risk. -/
theorem c8_all_gray_neutral (batch : List (ℚ × List ChinaEcon.AggItem))
    (hne : ∀ d ∈ batch, d.2 ≠ [])
    (hgray : ∀ d ∈ batch, ∀ it ∈ d.2, it.level = .gray)
    (hw : (batch.map Prod.fst).sum = 1) :
    ChinaEcon.totalScoreOf batch = 5 ∧
    ChinaEcon.scoreMap .red = 10 ∧ ChinaEcon.scoreMap .orange = 6 ∧
    ChinaEcon.scoreMap .yellow = 3 ∧ ChinaEcon.scoreMap .green = 0 ∧
    ChinaEcon.scoreMap .gray = 5 := by
  refine ⟨?_, rfl, rfl, rfl, rfl, rfl⟩
  have key : ∀ l : List (ℚ × List ChinaEcon.AggItem),
      (∀ d ∈ l, d.2 ≠ []) → (∀ d ∈ l, ∀ it ∈ d.2, it.level = .gray) →
      ChinaEcon.totalScoreOf l = 5 * (l.map Prod.fst).sum := by
    intro l
    induction l with
    | nil => simp [ChinaEcon.totalScoreOf]
    | cons d t ih =>
      intro h1 h2
      rw [ChinaEcon.totalScoreOf, List.map_cons, List.sum_cons,
        ← ChinaEcon.totalScoreOf,
        ih (fun x hx => h1 x (List.mem_cons_of_mem d hx))
          (fun x hx => h2 x (List.mem_cons_of_mem d hx)),
        gray_dim_sum d.2 (h2 d (List.mem_cons_self d t))]
      have hlen : ((d.2.length : ℚ)) ≠ 0 := by
        have h3 := List.length_pos.mpr (h1 d (List.mem_cons_self d t))
        exact_mod_cast Nat.pos_iff_ne_zero.mp h3
      rw [List.map_cons, List.sum_cons]
      field_simp
      ring
  rw [key batch hne hgray, hw, mul_one]

/-- C8 witness: the neutral score at a concrete all-Gray batch with the
china_econ weights E 0.20, S 0.35, P 0.30, T 0.15 (which sum to 1). -/
theorem c8_witness :
    ChinaEcon.totalScoreOf
      [(1/5, [{ name := "E1", level := .gray }]),
       (7/20, [{ name := "S1", level := .gray }, { name := "S2", level := .gray }]),
       (3/10, [{ name := "P1", level := .gray }]),
       (3/20, [{ name := "T1", level := .gray }])] = 5 :=
  (c8_all_gray_neutral
    [(1/5, [{ name := "E1", level := .gray }]),
     (7/20, [{ name := "S1", level := .gray }, { name := "S2", level := .gray }]),
     (3/10, [{ name := "P1", level := .gray }]),
     (3/20, [{ name := "T1", level := .gray }])]
    (by intro d hd; fin_cases hd <;> simp)
    (by intro d hd; fin_cases hd <;> (intro it hit; fin_cases hit <;> rfl))
    (by simp; norm_num)).1

/-- C10: in the A-share rotation dashboard the E consensus is the spear
average minus the shield average (so it can be negative while every member
z-score is positive — witnessed by the all-positive assignment envPos),
P, S and T are plain member averages, Total is the arithmetic mean of the
four consensus values, and a member missing from individual_z_scores
contributes exactly 0 (replacing a missing member by an explicit 0 changes
nothing). -/
theorem c10_consensus (env : String → Option ℚ) :
    (ChinaS.consensusZScores env).lookup "E" =
      some ((((env "159915.SZ").getD 0 + (env "512480.SS").getD 0) / 2) -
        (((env "510850.SS").getD 0 + (env "159929.SZ").getD 0) / 2)) ∧
    (ChinaS.consensusZScores env).lookup "P" =
      some (((env "512000.SS").getD 0 + (env "510650.SS").getD 0) / 2) ∧
    (ChinaS.consensusZScores env).lookup "S" =
      some (((env "515290.SS").getD 0 + (env "159928.SZ").getD 0 +
        (env "510410.SS").getD 0) / 3) ∧
    (ChinaS.consensusZScores env).lookup "T" =
      some (((env "510300.SS").getD 0 + (env "510500.SS").getD 0 +
        (env "510050.SS").getD 0) / 3) ∧
    (ChinaS.consensusZScores env).lookup "Total" =
      some (((((env "512000.SS").getD 0 + (env "510650.SS").getD 0) / 2) +
        (((env "515290.SS").getD 0 + (env "159928.SZ").getD 0 +
          (env "510410.SS").getD 0) / 3) +
        (((env "510300.SS").getD 0 + (env "510500.SS").getD 0 +
          (env "510050.SS").getD 0) / 3) +
        ((((env "159915.SZ").getD 0 + (env "512480.SS").getD 0) / 2) -
          (((env "510850.SS").getD 0 + (env "159929.SZ").getD 0) / 2))) / 4) ∧
    (∀ c : String, env c = none →
      ChinaS.consensusZScores env =
        ChinaS.consensusZScores (fun x => if x = c then some 0 else env x)) ∧
    (∀ c : String, (0 : ℚ) < (ChinaS.envPos c).getD 0) ∧
    (ChinaS.consensusZScores ChinaS.envPos).lookup "E" = some (-(9 / 10)) := by
  have hmean2 : ∀ a b : ℚ, listMean [a, b] = (a + b) / 2 := by
    intro a b
    simp [listMean]
  have hmean3 : ∀ a b c : ℚ, listMean [a, b, c] = (a + b + c) / 3 := by
    intro a b c
    rw [listMean]
    simp only [List.sum_cons, List.sum_nil, List.length_cons, List.length_nil]
    push_cast
    ring_nf
  have hmean4 : ∀ a b c d : ℚ, listMean [a, b, c, d] = (a + b + c + d) / 4 := by
    intro a b c d
    rw [listMean]
    simp only [List.sum_cons, List.sum_nil, List.length_cons, List.length_nil]
    push_cast
    ring_nf
  refine ⟨?_, ?_, ?_, ?_, ?_, ?_, ?_, ?_⟩
  · simp [ChinaS.consensusZScores, ChinaS.memberZ, ChinaS.spear, ChinaS.shield,
      ChinaS.champion, List.lookup, hmean2]
  · simp [ChinaS.consensusZScores, ChinaS.memberZ, ChinaS.champion, List.lookup, hmean2]
  · simp [ChinaS.consensusZScores, ChinaS.memberZ, ChinaS.champion, List.lookup, hmean3]
  · simp [ChinaS.consensusZScores, ChinaS.memberZ, ChinaS.champion, List.lookup, hmean3]
  · simp [ChinaS.consensusZScores, ChinaS.memberZ, ChinaS.champion, ChinaS.spear,
      ChinaS.shield, List.lookup, hmean2, hmean3, hmean4]
  · intro c hc
    have hpt : (fun code => ((fun x => if x = c then some 0 else env x) code).getD 0) =
        fun code => (env code).getD 0 := by
      funext x
      by_cases hx : x = c
      · subst hx
        simp [hc]
      · simp [hx]
    simp only [ChinaS.consensusZScores, ChinaS.memberZ, hpt]
  · intro c
    rw [ChinaS.envPos]
    by_cases hc : c ∈ ChinaS.spear
    · rw [if_pos hc]
      norm_num
    · rw [if_neg hc]
      norm_num
  · have h1 : ChinaS.envPos "159915.SZ" = some (1 / 10) := by
      rw [ChinaS.envPos, if_pos (by rw [ChinaS.spear]; simp)]
    have h2 : ChinaS.envPos "512480.SS" = some (1 / 10) := by
      rw [ChinaS.envPos, if_pos (by rw [ChinaS.spear]; simp)]
    have h3 : ChinaS.envPos "510850.SS" = some 1 := by
      rw [ChinaS.envPos, if_neg (by rw [ChinaS.spear]; simp)]
    have h4 : ChinaS.envPos "159929.SZ" = some 1 := by
      rw [ChinaS.envPos, if_neg (by rw [ChinaS.spear]; simp)]
    simp [ChinaS.consensusZScores, ChinaS.memberZ, ChinaS.spear, ChinaS.shield,
      ChinaS.champion, List.lookup, hmean2, h1, h2, h3, h4]
    norm_num

/-- C10 witness: the missing-member clause applied to the everywhere-missing
score map and the bank ETF code — adding an explicit 0 entry for it changes
no consensus value. -/
theorem c10_witness :
    ChinaS.consensusZScores (fun _ => none) =
      ChinaS.consensusZScores (fun x => if x = "515290.SS" then some 0 else none) :=
  (c10_consensus (fun _ => none)).2.2.2.2.2.1 "515290.SS" rfl
